import Mathlib

/-!
Verification of the sysmaster unit-manager core against its specification.

The development shallowly embeds the relevant Rust sources:
  - `coms/socket/src/mng.rs`    (socket state machine, `SocketMngData`, `SocketMngPort`)
  - `coms/socket/src/config.rs` (`SocketConfig`, address parsing, `socket_listen`)
  - `coms/socket/src/unit.rs`   (`SocketUnit::start/stop`)
  - `process1/src/manager/unit/unit_entry/u_entry.rs` (`Unit::start`)
  - `process1/src/manager/unit/job/job_transaction.rs`
  - `process1/src/manager/unit/unit_datastore/unit_child.rs`

External collaborators (the event loop, the unit manager `um`, spawned
processes, the kernel's socket syscalls) are modelled as explicit
environment records; code of the repository that is not part of the
sources (for example `port.rs`, `job_table.rs`, `uu_condition.rs`) is
modelled from the specification and marked as such in its doc comment.
Machine integers (`RawFd`, pids, the `refused` counter) are modelled as
`Int`; none of the claims exercises integer overflow.
-/

namespace Sysmaster

/-! ## Basic enumerations (rentry.rs / unit_base.rs) -/

/-- Socket sub-states, `SocketState` in `rentry.rs` (as listed in `mng.rs`). -/
inductive SocketState
  | Dead | StartPre | StartChown | StartPost | Listening | Running
  | StopPre | StopPreSigterm | StopPreSigkill | StopPost
  | FinalSigterm | FinalSigkill | Failed | Cleaning | StateMax
deriving DecidableEq, Repr

/-- Unit-level active states, `UnitActiveState`. -/
inductive UnitActiveState
  | UnitActive | UnitReloading | UnitInActive | UnitFailed
  | UnitActivating | UnitDeActivating | UnitMaintenance
deriving DecidableEq, Repr

/-- Socket run results, `SocketResult` in `rentry.rs`. -/
inductive SocketResult
  | Success | FailureResources | FailureTimeout | FailureExitCode
  | FailureSignal | FailureCoreDump | FailureStartLimitHit
  | FailureTriggerLimitHit | FailureServiceStartLimitHit
deriving DecidableEq, Repr

/-- Socket command hooks, `SocketCommand` in `rentry.rs`. -/
inductive SocketCommand
  | StartPre | StartPost | StopPre | StopPost
deriving DecidableEq, Repr

/-- Kill operations, `KillOperation`. -/
inductive KillOperation
  | KillTerminate | KillKill | KillWatchdog
deriving DecidableEq, Repr

/-- Port kinds, `PortType` in `rentry.rs` (the set follows the data model of the spec). -/
inductive PortType
  | Socket | Fifo | Special | Mqueue | UsbFunction
deriving DecidableEq, Repr

/-- Socket types, `nix::sys::socket::SockType`. -/
inductive SockType
  | Stream | Datagram | SeqPacket | Raw
deriving DecidableEq, Repr

/-- Address families, `nix::sys::socket::AddressFamily` (the ones this code touches). -/
inductive AddressFamily
  | Unix | Inet | Inet6 | Netlink
deriving DecidableEq, Repr

/-- Errno values distinguished by the embedded code; every other value is `other`. -/
inductive Errno
  | EADDRINUSE | EINVAL | EAGAIN | other (n : Nat)
deriving DecidableEq, Repr

/-- Unit action errors, `UnitActionError` in `unit_base.rs` (also covering the
error kinds of the `coms` tree); `EOther` stands for any error the embedding
does not need to distinguish (for example the one produced by `um.unit_enabled`). -/
inductive ErrU
  | UnitActionEAgain | UnitActionEAlready | UnitActionEInval
  | UnitActionECanceled | UnitActionEBadR | EOther
deriving DecidableEq, Repr

/-- The source: `SocketState::to_unit_active_state` in `mng.rs`. -/
def SocketState.to_unit_active_state : SocketState → UnitActiveState
  | .Dead => .UnitInActive
  | .StartPre | .StartChown | .StartPost => .UnitActivating
  | .Listening | .Running => .UnitActive
  | .StopPre | .StopPreSigterm | .StopPost | .StopPreSigkill
  | .StateMax | .FinalSigterm | .FinalSigkill => .UnitDeActivating
  | .Failed => .UnitFailed
  | .Cleaning => .UnitMaintenance

/-- The source: `SocketState::to_kill_operation` in `mng.rs`; the
`StopPreSigterm` arm returns `KillKill` (the restart-job check is a `todo!()`
comment in the source). -/
def SocketState.to_kill_operation : SocketState → KillOperation
  | .StopPreSigterm => .KillKill
  | .FinalSigterm => .KillTerminate
  | _ => .KillKill

/-! ## Socket manager data model (`SocketMngData` in `mng.rs`)

A port as the manager sees it: the owned file descriptor plus the state of
its event source in the event loop.  `registered`/`enabled` model the
external event-loop calls `add_source`/`set_enabled` (`del_source`
unregisters); `pendingConns` models the accept queue that `flush_accept`
drains (modelled from the spec: `port.rs` is not among the sources; per the
spec flushing drops pending connections and leaves the descriptor open). -/

structure SocketPortM where
  p_type : PortType
  sa_type : SockType
  fd : Int
  registered : Bool
  enabled : Bool
  pendingConns : Nat
deriving DecidableEq, Repr

/-- Mutable state of `SocketMngData` (`mng.rs`): sub-state, result, the
control-command queue and the refused-connection counter, plus the ports.
The control pid (`SocketPid`) and the reliability entry are bookkeeping for
processes and persistence and are not modelled (`pid.rs`/`rentry.rs` are not
among the sources; no claim observes them). Commands are opaque tokens. -/
structure SocketMngM where
  state : SocketState
  result : SocketResult
  controlCommand : List Nat
  refused : Int
  ports : List SocketPortM
deriving DecidableEq, Repr

/-- Environment of the socket manager: the owning unit, the unit manager
`um`, the configuration section, and the outcome of external calls (spawn,
kill, open, accept). -/
structure SocketMngEnv where
  hasOwner : Bool
  ownerId : String
  umHasStopJob : String → Bool
  relationActiveOrPending : String → Bool
  umStartUnitOk : String → Bool
  unitRefTarget : Option String
  accept : Bool
  execCmds : SocketCommand → Option (List Nat)
  spawnOk : Nat → Bool
  killOk : KillOperation → Bool
  openPort : Nat → Except Errno Int
  acceptResult : Except Errno Int
  unitEnabledOk : Bool
  testStartLimit : Bool

/-- The source: `SocketMngData::watch_fds` — for every port whose fd is
non-negative, `add_source` then `set_enabled(On)`. Ports with `fd < 0` are
skipped. -/
def watch_fds (m : SocketMngM) : SocketMngM :=
  { m with ports := m.ports.map fun p =>
      if p.fd < 0 then p else { p with registered := true, enabled := true } }

/-- The source: `SocketMngData::unwatch_fds` — `set_enabled(Off)` on every
port source (registration is kept). -/
def unwatch_fds (m : SocketMngM) : SocketMngM :=
  { m with ports := m.ports.map fun p => { p with enabled := false } }

/-- The source: `SocketMngData::close_fds` — `del_source` every port source,
then close every port (after which the port no longer owns a descriptor,
`fd < 0`; `port.close` is in `port.rs`, modelled from the spec's port
lifecycle). -/
def close_fds (m : SocketMngM) : SocketMngM :=
  { m with ports := m.ports.map fun p =>
      { p with registered := false, enabled := false, fd := -1 } }

/-- The source: `SocketMngData::flush_ports` — `flush_accept` and `flush_fd`
on every port (modelled from the spec: flushing drops pending connections;
the descriptor itself stays open). -/
def flush_ports (m : SocketMngM) : SocketMngM :=
  { m with ports := m.ports.map fun p => { p with pendingConns := 0 } }

/-- States in which `set_state` keeps the control pid watched (`mng.rs`). -/
def cmd_states : List SocketState :=
  [.StartPre, .StartChown, .StartPost, .StopPre, .StopPreSigterm,
   .StopPreSigkill, .StopPost, .FinalSigterm, .FinalSigkill]

/-- States in which `set_state` keeps the port fds open (`mng.rs`). -/
def keep_fd_states : List SocketState :=
  [.StartChown, .StartPost, .Listening, .Running, .StopPre,
   .StopPreSigterm, .StopPreSigkill]

/-- The source: `SocketMngData::set_state` — store the new state; disable the
port event sources unless the new state is `Listening`; close all port fds
unless the new state is one of `keep_fd_states`. (The control-pid unwatch and
the `notify` call to the owner have no observable effect in this model.) -/
def set_state (s : SocketState) (m : SocketMngM) : SocketMngM :=
  let m1 := { m with state := s }
  let m2 := if s = SocketState.Listening then m1 else unwatch_fds m1
  if s ∈ keep_fd_states then m2 else close_fds m2

/-- The source: `SocketMngData::control_command_fill` — replace the queue by
the configured commands of the hook, or leave it unchanged when the hook has
none configured. -/
def control_command_fill (env : SocketMngEnv) (t : SocketCommand) (m : SocketMngM) :
    SocketMngM :=
  match env.execCmds t with
  | some cmds => { m with controlCommand := cmds }
  | none => m

/-- The source: `SocketMngData::control_command_pop` — `Vec::pop`, which takes
the last element. -/
def control_command_pop (m : SocketMngM) : Option Nat × SocketMngM :=
  match m.controlCommand.getLast? with
  | some c => (some c, { m with controlCommand := m.controlCommand.dropLast })
  | none => (none, m)

/-- The source: `SocketMngData::enter_dead` — record the result (first failure
wins), then go to `Dead` on overall success and `Failed` otherwise. -/
def enter_dead (res : SocketResult) (m : SocketMngM) : SocketMngM :=
  let m := if m.result = SocketResult.Success then { m with result := res } else m
  let st := if m.result = SocketResult.Success then SocketState.Dead else SocketState.Failed
  set_state st m

/-- Kill failure of the owner's processes: the kill is attempted only when an
owner exists, and fails when the environment says so. -/
def kill_fails (env : SocketMngEnv) (op : KillOperation) : Bool :=
  env.hasOwner && !(env.killOk op)

/-- The source: `SocketMngData::enter_signal` at state `FinalSigkill`
(operation `KillKill`): a kill failure falls to `enter_dead(FailureResources)`,
success continues to `enter_dead(Success)`. -/
def enter_signal_final_sigkill (env : SocketMngEnv) (res : SocketResult)
    (m : SocketMngM) : SocketMngM :=
  let m := if m.result = SocketResult.Success then { m with result := res } else m
  if kill_fails env SocketState.FinalSigkill.to_kill_operation then
    enter_dead SocketResult.FailureResources m
  else
    enter_dead SocketResult.Success m

/-- The source: `SocketMngData::enter_signal` at state `FinalSigterm`
(operation `KillTerminate`): a kill failure falls to
`enter_dead(FailureResources)`, success continues to the `FinalSigkill` pass. -/
def enter_signal_final_sigterm (env : SocketMngEnv) (res : SocketResult)
    (m : SocketMngM) : SocketMngM :=
  let m := if m.result = SocketResult.Success then { m with result := res } else m
  if kill_fails env SocketState.FinalSigterm.to_kill_operation then
    enter_dead SocketResult.FailureResources m
  else
    enter_signal_final_sigkill env SocketResult.Success m

/-- The source: `SocketMngData::enter_stop_post` — record the result, fill the
`StopPost` hook; with a command: spawn it (`StopPost` state on success, fall
to the final-sigterm pass with `FailureResources` on spawn failure); without:
fall to the final-sigterm pass with `Success`. -/
def enter_stop_post (env : SocketMngEnv) (res : SocketResult) (m : SocketMngM) :
    SocketMngM :=
  let m := if m.result = SocketResult.Success then { m with result := res } else m
  let m := control_command_fill env SocketCommand.StopPost m
  match control_command_pop m with
  | (some cmd, m) =>
    if env.spawnOk cmd then set_state SocketState.StopPost m
    else enter_signal_final_sigterm env SocketResult.FailureResources m
  | (none, m) => enter_signal_final_sigterm env SocketResult.Success m

/-- The source: `SocketMngData::enter_signal` at state `StopPreSigkill`
(operation `KillKill`): kill failure falls to
`enter_stop_post(FailureResources)`, success to `enter_stop_post(Success)`. -/
def enter_signal_stop_pre_sigkill (env : SocketMngEnv) (res : SocketResult)
    (m : SocketMngM) : SocketMngM :=
  let m := if m.result = SocketResult.Success then { m with result := res } else m
  if kill_fails env SocketState.StopPreSigkill.to_kill_operation then
    enter_stop_post env SocketResult.FailureResources m
  else
    enter_stop_post env SocketResult.Success m

/-- The source: `SocketMngData::enter_signal` at state `StopPreSigterm` (the
source's operation here is `KillKill`, see `to_kill_operation`): kill failure
falls to `enter_stop_post(FailureResources)`, success continues with the
`StopPreSigkill` pass. -/
def enter_signal_stop_pre_sigterm (env : SocketMngEnv) (res : SocketResult)
    (m : SocketMngM) : SocketMngM :=
  let m := if m.result = SocketResult.Success then { m with result := res } else m
  if kill_fails env SocketState.StopPreSigterm.to_kill_operation then
    enter_stop_post env SocketResult.FailureResources m
  else
    enter_signal_stop_pre_sigkill env SocketResult.Success m

/-- The source: `SocketMngData::enter_stop_pre` — record the result, fill the
`StopPre` hook; with a command: spawn it (`StopPre` state on success,
`enter_stop_post(FailureResources)` on spawn failure); without a command:
`enter_stop_post(Success)`. -/
def enter_stop_pre (env : SocketMngEnv) (res : SocketResult) (m : SocketMngM) :
    SocketMngM :=
  let m := if m.result = SocketResult.Success then { m with result := res } else m
  let m := control_command_fill env SocketCommand.StopPre m
  match control_command_pop m with
  | (some cmd, m) =>
    if env.spawnOk cmd then set_state SocketState.StopPre m
    else enter_stop_post env SocketResult.FailureResources m
  | (none, m) => enter_stop_post env SocketResult.Success m

/-- The source: `SocketMngData::enter_listening` — flush the ports when
`Accept=false`, watch the port fds, set state `Listening`. -/
def enter_listening (env : SocketMngEnv) (m : SocketMngM) : SocketMngM :=
  let m := if env.accept then m else flush_ports m
  set_state SocketState.Listening (watch_fds m)

/-- The source: the port loop of `SocketMngData::open_fds` — open each port in
order (`port.open_port(true)`, whose outcome the environment supplies per
port index), stopping at the first error; `apply_sock_opt` on the fresh fd
has no observable effect in this model. -/
def open_ports_go (env : SocketMngEnv) : Nat → List SocketPortM →
    Except Errno (List SocketPortM)
  | _, [] => Except.ok []
  | i, p :: rest =>
    match env.openPort i with
    | Except.error e => Except.error e
    | Except.ok fd =>
      match open_ports_go env (i + 1) rest with
      | Except.error e => Except.error e
      | Except.ok rest2 => Except.ok ({ p with fd := fd } :: rest2)

/-- The source: `SocketMngData::open_fds` — on any port failure `close_fds`
(which wipes every descriptor, including ones just opened) and report the
error. -/
def open_fds (env : SocketMngEnv) (m : SocketMngM) : SocketMngM × Option Errno :=
  match open_ports_go env 0 m.ports with
  | Except.ok ps => ({ m with ports := ps }, none)
  | Except.error e => (close_fds m, some e)

/-- The source: `SocketMngData::enter_start_post` — fill the `StartPost` hook;
with a command: spawn it (`StartPost` state on success,
`enter_stop_pre(FailureResources)` on spawn failure); without:
`enter_listening`. -/
def enter_start_post (env : SocketMngEnv) (m : SocketMngM) : SocketMngM :=
  let m := control_command_fill env SocketCommand.StartPost m
  match control_command_pop m with
  | (some cmd, m) =>
    if env.spawnOk cmd then set_state SocketState.StartPost m
    else enter_stop_pre env SocketResult.FailureResources m
  | (none, m) => enter_listening env m

/-- The source: `SocketMngData::enter_start_chown` — open the port fds;
continue with `enter_start_post` on success, or
`enter_stop_pre(FailureResources)` on failure. -/
def enter_start_chown (env : SocketMngEnv) (m : SocketMngM) : SocketMngM :=
  match open_fds env m with
  | (m, none) => enter_start_post env m
  | (m, some _) => enter_stop_pre env SocketResult.FailureResources m

/-- The source: `SocketMngData::enter_start_pre` — fill the `StartPre` hook;
with a command: spawn it (`StartPre` state on success,
`enter_dead(FailureResources)` on spawn failure); without:
`enter_start_chown`. -/
def enter_start_pre (env : SocketMngEnv) (m : SocketMngM) : SocketMngM :=
  let m := control_command_fill env SocketCommand.StartPre m
  match control_command_pop m with
  | (some cmd, m) =>
    if env.spawnOk cmd then set_state SocketState.StartPre m
    else enter_dead SocketResult.FailureResources m
  | (none, m) => enter_start_chown env m

/-- Result of `SocketMngData::enter_running`: the new manager state, the id of
the service passed to `um.start_unit` when that call was made, and whether
the `todo!()` template-support branch (owner present, no stop job, `fd ≥ 0`)
was reached — in the source that branch panics. -/
structure RunOutcome where
  mng : SocketMngM
  startedService : Option String
  panicked : Bool
deriving Repr

/-- The source: `SocketMngData::enter_running(fd)` — with an owner: if the
unit manager reports a pending stop job for the socket unit itself
(`um.has_stop_job(u.id())`), then for `fd ≥ 0` only bump the refused counter
and for `fd < 0` flush the ports; with no stop job and `fd < 0`: when the
triggered relation is not active or pending, fail to `StopPre` with
`FailureResources` if no trigger target is configured, otherwise
`um.start_unit(service)` (failure again goes to `StopPre` with
`FailureResources`), and on success (or when the relation was already active
or pending) set state `Running`.  The `fd ≥ 0` branch without a stop job is
the unimplemented template-support `todo!()`. -/
def enter_running (env : SocketMngEnv) (fd : Int) (m : SocketMngM) : RunOutcome :=
  if env.hasOwner then
    if env.umHasStopJob env.ownerId then
      if 0 ≤ fd then ⟨{ m with refused := m.refused + 1 }, none, false⟩
      else ⟨flush_ports m, none, false⟩
    else if fd < 0 then
      if env.relationActiveOrPending env.ownerId then
        ⟨set_state SocketState.Running m, none, false⟩
      else
        match env.unitRefTarget with
        | none => ⟨enter_stop_pre env SocketResult.FailureResources m, none, false⟩
        | some service =>
          if env.umStartUnitOk service then
            ⟨set_state SocketState.Running m, some service, false⟩
          else
            ⟨enter_stop_pre env SocketResult.FailureResources m, some service, false⟩
    else ⟨m, none, true⟩
  else ⟨m, none, false⟩

/-- The source: `SocketAddress::can_accept` in `config.rs` — true exactly for
stream sockets. -/
def can_accept (st : SockType) : Bool :=
  st = SockType.Stream

/-- Trace of one `SocketMngPort::dispatch_io` call: the resulting manager
state, the return value, the fd returned by `accept` when accept was called
and succeeded, the fd to which the per-connection socket options were
applied, and the argument passed to `enter_running` (when it was called). -/
structure DispatchResult where
  mng : SocketMngM
  ret : Except Unit Int
  accepted : Option Int
  sockoptApplied : Option Int
  enterRunningFd : Option Int
  startedService : Option String
  panicked : Bool
deriving Repr

/-- The source: `SocketMngPort::dispatch_io` — nothing happens outside
`Listening`.  In `Listening`, when `Accept=true`, the port kind is `Socket`
and the address can accept, call `accept` once (propagating its error) and
apply the socket options to the accepted fd; then call `enter_running` with
the outer binding `afd`, which is initialised to `-1` and never reassigned —
the accepted fd is bound to an inner variable that shadows it. -/
def dispatch_io (env : SocketMngEnv) (pt : PortType) (st : SockType)
    (m : SocketMngM) : DispatchResult :=
  let afd : Int := -1
  if m.state ≠ SocketState.Listening then ⟨m, Except.ok 0, none, none, none, none, false⟩
  else if env.accept && (pt = PortType.Socket) && can_accept st then
    match env.acceptResult with
    | Except.error _ => ⟨m, Except.error (), none, none, none, none, false⟩
    | Except.ok newfd =>
      let r := enter_running env afd m
      ⟨r.mng, Except.ok 0, some newfd, some newfd, some afd, r.startedService, r.panicked⟩
  else
    let r := enter_running env afd m
    ⟨r.mng, Except.ok 0, none, none, some afd, r.startedService, r.panicked⟩

/-- Wait statuses the socket manager can see (`nix::sys::wait::WaitStatus`);
`sigchld_result` treats every other variant as unreachable. -/
inductive WaitStatusM
  | exited (pid : Int) (status : Int)
  | signaled (pid : Int) (sig : Nat) (coreDump : Bool)
deriving DecidableEq, Repr

/-- The source: `SocketMngData::sigchld_result`. -/
def sigchld_result : WaitStatusM → SocketResult
  | .exited _ status => if status = 0 then .Success else .FailureExitCode
  | .signaled _ _ coreDump => if coreDump then .FailureCoreDump else .FailureSignal

/-- The source: `SocketMngData::run_next` — pop the next control command and
spawn it; a spawn failure is only logged. -/
def run_next (env : SocketMngEnv) (m : SocketMngM) : SocketMngM :=
  match control_command_pop m with
  | (some cmd, m) => if env.spawnOk cmd then m else m
  | (none, m) => m

/-- The source: `SocketMngData::sigchld_event` — when further control
commands remain and the child succeeded, run the next one; otherwise advance
the state machine according to the current state.  `none` is the source's
`unreachable!()` arm. -/
def sigchld_event (env : SocketMngEnv) (ws : WaitStatusM) (m : SocketMngM) :
    Option SocketMngM :=
  let res := sigchld_result ws
  if !m.controlCommand.isEmpty && res = SocketResult.Success then
    some (run_next env m)
  else
    match m.state with
    | .StartPre =>
      some (if res = SocketResult.Success then enter_start_chown env m
            else enter_signal_final_sigterm env res m)
    | .StartChown =>
      some (if res = SocketResult.Success then enter_start_post env m
            else enter_stop_pre env res m)
    | .StartPost =>
      some (if res = SocketResult.Success then enter_listening env m
            else enter_stop_pre env res m)
    | .StopPre | .StopPreSigterm | .StopPreSigkill => some (enter_stop_post env res m)
    | .StopPost | .FinalSigterm | .FinalSigkill => some (enter_dead res m)
    | _ => none

/-- States that make `start_check` answer `Err(UnitActionEAgain)`. -/
def start_check_again_states : List SocketState :=
  [.StopPre, .StopPreSigkill, .StopPreSigterm, .StopPost,
   .FinalSigterm, .FinalSigkill, .Cleaning]

/-- The source: `SocketMngData::start_check` — `EAgain` while stopping or
cleaning; `Ok(true)` (already starting) in the three start states; otherwise
check `um.unit_enabled` on the configured trigger target (propagating its
error), then the owner's start limit: when the owner is missing or the limit
test fails, `enter_dead(FailureStartLimitHit)` and `ECanceled`; else
`Ok(false)`. -/
def start_check (env : SocketMngEnv) (m : SocketMngM) : SocketMngM × Except ErrU Bool :=
  if m.state ∈ start_check_again_states then (m, Except.error ErrU.UnitActionEAgain)
  else if m.state ∈ [SocketState.StartPre, SocketState.StartChown, SocketState.StartPost] then
    (m, Except.ok true)
  else if env.unitRefTarget.isSome && !env.unitEnabledOk then
    (m, Except.error ErrU.EOther)
  else if !(env.hasOwner && env.testStartLimit) then
    (enter_dead SocketResult.FailureStartLimitHit m, Except.error ErrU.UnitActionECanceled)
  else (m, Except.ok false)

/-- Outcome of the sub-kind start entry point (`SocketUnit::start` in
`unit.rs`): a silent no-op when the socket is already starting, a real
`start_action`, or a refused start. -/
inductive SubStartOutcome
  | noop
  | started
  | failed (e : ErrU)
deriving DecidableEq, Repr

/-- The source: `SocketUnit::start` — `start_check` first: an error is
propagated, `true` means "already in start" (no-op), otherwise run
`start_action` (= `enter_start_pre`). -/
def socket_start (env : SocketMngEnv) (m : SocketMngM) : SocketMngM × SubStartOutcome :=
  match start_check env m with
  | (m, Except.error e) => (m, SubStartOutcome.failed e)
  | (m, Except.ok true) => (m, SubStartOutcome.noop)
  | (m, Except.ok false) => (enter_start_pre env m, SubStartOutcome.started)

/-- The source: `SocketMngData::stop_check` — `Ok(true)` (already stopping) in
the six stop states; in the three start states, `enter_signal(StopPreSigterm,
Success)` then `EAgain`; otherwise `Ok(false)`. -/
def stop_check (env : SocketMngEnv) (m : SocketMngM) : SocketMngM × Except ErrU Bool :=
  if m.state ∈ [SocketState.StopPre, SocketState.StopPreSigterm, SocketState.StopPreSigkill,
      SocketState.StopPost, SocketState.FinalSigterm, SocketState.FinalSigkill] then
    (m, Except.ok true)
  else if m.state ∈ [SocketState.StartPre, SocketState.StartChown, SocketState.StartPost] then
    (enter_signal_stop_pre_sigterm env SocketResult.Success m,
     Except.error ErrU.UnitActionEAgain)
  else (m, Except.ok false)

/-- The source: `SocketUnit::stop` — without `force`, consult `stop_check`
(propagating its error, and doing nothing when already stopping); otherwise
run `stop_action` (= `enter_stop_pre(Success)`). -/
def socket_stop (env : SocketMngEnv) (force : Bool) (m : SocketMngM) :
    SocketMngM × SubStartOutcome :=
  if force then (enter_stop_pre env SocketResult.Success m, SubStartOutcome.started)
  else
    match stop_check env m with
    | (m, Except.error e) => (m, SubStartOutcome.failed e)
    | (m, Except.ok true) => (m, SubStartOutcome.noop)
    | (m, Except.ok false) => (enter_stop_pre env SocketResult.Success m, SubStartOutcome.started)

/-- The source: `SocketMngData::new` — fresh manager state (`StateMax`,
`Success`, empty command queue, zero refused counter) over the ports built by
`build_ports`. -/
def socket_mng_new (ports0 : List SocketPortM) : SocketMngM :=
  { state := SocketState.StateMax, result := SocketResult.Success,
    controlCommand := [], refused := 0, ports := ports0 }

/-! ## Unit common frame (`Unit::start` in `u_entry.rs`)

The unit's active state is what the sub-kind reports
(`current_active_state = sub.current_active_state()`), here the socket
sub-kind; the load state, and the outcomes of the condition and assert
tests, are inputs. -/

/-- Unit load states, `UnitLoadState` in `unit_rentry.rs`. -/
inductive UnitLoadState
  | UnitStub | UnitLoaded | UnitNotFound | UnitError | UnitMerged | UnitMasked
deriving DecidableEq, Repr

/-- Result of `Unit::start`: the (socket) sub state afterwards, the returned
value, and the sub-kind start outcome when the preflight reached `sub.start()`
(`none` when a preflight gate returned early). -/
structure UnitStartRes where
  mng : SocketMngM
  ret : Except ErrU Unit
  subOutcome : Option SubStartOutcome
deriving Repr

/-- The source: `Unit::start` for a socket unit — return `EAlready` when the
active state is active or reloading; `EAgain` when it is maintenance;
`EInval` when the load state is not loaded; evaluate the condition test and
then the assert test only when the unit is not already activating, answering
`EInval` on failure; otherwise invoke the sub-kind start. -/
def unit_start (env : SocketMngEnv) (load : UnitLoadState)
    (conditionsOk assertsOk : Bool) (m : SocketMngM) : UnitStartRes :=
  let active := m.state.to_unit_active_state
  if active = UnitActiveState.UnitActive ∨ active = UnitActiveState.UnitReloading then
    ⟨m, Except.error ErrU.UnitActionEAlready, none⟩
  else if active = UnitActiveState.UnitMaintenance then
    ⟨m, Except.error ErrU.UnitActionEAgain, none⟩
  else if load ≠ UnitLoadState.UnitLoaded then
    ⟨m, Except.error ErrU.UnitActionEInval, none⟩
  else if active ≠ UnitActiveState.UnitActivating ∧ conditionsOk = false then
    ⟨m, Except.error ErrU.UnitActionEInval, none⟩
  else if active ≠ UnitActiveState.UnitActivating ∧ assertsOk = false then
    ⟨m, Except.error ErrU.UnitActionEInval, none⟩
  else
    match socket_start env m with
    | (m2, o) =>
      ⟨m2, match o with
           | SubStartOutcome.failed e => Except.error e
           | _ => Except.ok (), some o⟩

/-- Job results (the subset the claims mention), `JobResult`. -/
inductive JobResultM
  | JobDone | JobSkipped | JobFailed | JobDependency | JobCancelled
deriving DecidableEq, Repr

/-- Modelled from the spec: how the manager marks a unit whose start was
refused by the condition or assert tests.  The code performing this marking
is not among the sources (`Unit::start` in `u_entry.rs` only returns
`UnitActionEInval`; the handling lives in the callers and in
`uu_condition.rs`, neither of which is under the sources).  Per the spec, a
failed condition test marks the unit inactive with result skipped, and a
failed assert test marks the unit failed; `Unit::start` checks the condition
test first. -/
def condition_refusal_marking (conditionsOk assertsOk : Bool) :
    Option (UnitActiveState × Option JobResultM) :=
  if conditionsOk = false then some (UnitActiveState.UnitInActive, some JobResultM.JobSkipped)
  else if assertsOk = false then some (UnitActiveState.UnitFailed, none)
  else none

/-! ## Socket configuration loading (`SocketConfig` in `config.rs`) -/

/-- Address payloads (`SockaddrLike` values this code constructs). -/
inductive SockAddrM
  | unixPath (p : String)
  | unixAbstract (name : String)
  | inet4 (addr : Nat) (port : Nat)
  | inet6 (addr : Nat) (port : Nat)
  | netlink (pid : Nat) (group : Nat)
deriving DecidableEq, Repr

/-- The family of an address (`SockaddrLike::family`). -/
def SockAddrM.family : SockAddrM → AddressFamily
  | .unixPath _ | .unixAbstract _ => AddressFamily.Unix
  | .inet4 _ _ => AddressFamily.Inet
  | .inet6 _ _ => AddressFamily.Inet6
  | .netlink _ _ => AddressFamily.Netlink

/-- The source: `SocketAddress::path` — the filesystem path of a pathname
UNIX address; `none` for abstract-namespace and non-UNIX addresses. -/
def SockAddrM.path : SockAddrM → Option String
  | .unixPath p => some p
  | _ => none

/-- The source: `SocketAddress` — an address with its socket type and
optional protocol (protocols as opaque numbers). -/
structure SocketAddressM where
  sock_addr : SockAddrM
  sa_type : SockType
  protocol : Option Nat
deriving DecidableEq, Repr

/-- Configuration-level errors; the source uses strings, here one
constructor per distinct message. -/
inductive ConfErr
  | serviceSuffix        | loadUnitFailed
  | parseSocketFailed    | netlinkFormat
  | netlinkInvalidFamily | netlinkInvalidGroup
  | invalidPortNumber    | invalidListenConfig
deriving DecidableEq, Repr

/-- Rust's `str::starts_with` over the character list (the embedding avoids
Lean's opaque `String` primitives so that witnesses can evaluate). -/
def str_starts_with (s pre : String) : Bool :=
  pre.toList.isPrefixOf s.toList

/-- Rust's `str::ends_with` over the character list. -/
def str_ends_with (s suf : String) : Bool :=
  suf.toList.isSuffixOf s.toList

/-- Worker of `split_whitespace`: the accumulator holds the current word
reversed. -/
def split_whitespace_go : List Char → List Char → List String
  | [], acc => if acc.isEmpty then [] else [String.mk acc.reverse]
  | c :: rest, acc =>
    if c.isWhitespace then
      if acc.isEmpty then split_whitespace_go rest []
      else String.mk acc.reverse :: split_whitespace_go rest []
    else split_whitespace_go rest (c :: acc)

/-- Rust's `str::split_whitespace`: the whitespace-separated non-empty words
of a string. -/
def split_whitespace (s : String) : List String :=
  split_whitespace_go s.toList []

/-- The standard library's `u16::from_str`: an optional leading plus sign,
then at least one decimal digit, value at most 65535. -/
def parse_u16 (s : String) : Option Nat :=
  let chars := s.toList
  let digits := match chars with
    | '+' :: rest => rest
    | cs => cs
  if digits.isEmpty then none
  else if digits.all Char.isDigit then
    let v := digits.foldl (fun acc c => acc * 10 + (c.toNat - 48)) 0
    if v ≤ 65535 then some v else none
  else none

/-- The standard library's `u32::from_str`, same shape as `parse_u16`. -/
def parse_u32 (s : String) : Option Nat :=
  let chars := s.toList
  let digits := match chars with
    | '+' :: rest => rest
    | cs => cs
  if digits.isEmpty then none
  else if digits.all Char.isDigit then
    let v := digits.foldl (fun acc c => acc * 10 + (c.toNat - 48)) 0
    if v < 4294967296 then some v else none
  else none

/-- Environment of configuration parsing: IPv6 support
(`socket_util::ipv6_is_supported`), the standard library's `SocketAddr`
string parser (external library behaviour, supplied as an oracle returning
is-v6/address/port), the netlink family table (modelled from the spec:
`NetlinkProtocol::from` lives in `base.rs`, which is not among the sources;
per the spec an invalid family is rejected and a valid one maps to a
protocol number), `um.load_unit_success`, and the owning unit. -/
structure ConfigEnv where
  ipv6Supported : Bool
  stdParseSocketAddr : String → Option (Bool × Nat × Nat)
  netlinkFamily : String → Option Nat
  loadUnitSuccess : String → Bool
  hasOwner : Bool
  ownerId : String

/-- The source: `parse_socket_address` in `config.rs` — a leading `/` is a
pathname UNIX address and a leading `@` an abstract one (the `nix` address
constructors' length limits are not modelled; every address a claim uses is
short); a bare `u16` is a port number, rejected when zero, bound on `::` when
IPv6 is supported and on `0.0.0.0` otherwise; then an `ip:port` literal via
the standard parser; anything else is an error. -/
def parse_socket_address (env : ConfigEnv) (item : String) (ty : SockType) :
    Except ConfErr SocketAddressM :=
  if str_starts_with item "/" then
    Except.ok ⟨SockAddrM.unixPath item, ty, none⟩
  else if str_starts_with item "@" then
    Except.ok ⟨SockAddrM.unixAbstract item, ty, none⟩
  else
    match parse_u16 item with
    | some port =>
      if port = 0 then Except.error ConfErr.invalidPortNumber
      else if env.ipv6Supported then Except.ok ⟨SockAddrM.inet6 0 port, ty, none⟩
      else Except.ok ⟨SockAddrM.inet4 0 port, ty, none⟩
    | none =>
      match env.stdParseSocketAddr item with
      | some (isV6, addr, port) =>
        if isV6 then Except.ok ⟨SockAddrM.inet6 addr port, ty, none⟩
        else Except.ok ⟨SockAddrM.inet4 addr port, ty, none⟩
      | none => Except.error ConfErr.invalidListenConfig

/-- The source: `parse_netlink_address` in `config.rs` — exactly two
whitespace-separated words `<family> <group>`; the family is looked up in the
netlink table and the group parsed as `u32`; the address is
`NetlinkAddr::new(0, group)` with type `Raw` and the family's protocol. -/
def parse_netlink_address (env : ConfigEnv) (item : String) :
    Except ConfErr SocketAddressM :=
  let words := split_whitespace item
  match words with
  | [w0, w1] =>
    match env.netlinkFamily w0 with
    | none => Except.error ConfErr.netlinkInvalidFamily
    | some proto =>
      match parse_u32 w1 with
      | none => Except.error ConfErr.netlinkInvalidGroup
      | some group => Except.ok ⟨SockAddrM.netlink 0 group, SockType.Raw, some proto⟩
  | _ => Except.error ConfErr.netlinkFormat

/-- The `[Socket]` section fields that configuration loading touches
(`SectionSocket` in `rentry.rs`; the exec hooks and the remaining keys play
no role in `SocketConfig::load`'s control flow). -/
structure SectionSocketM where
  Service : Option String
  ListenStream : Option (List String)
  ListenDatagram : Option (List String)
  ListenNetlink : Option (List String)
  ListenSequentialPacket : Option (List String)
deriving DecidableEq, Repr

/-- Default (empty) `[Socket]` section. -/
def SectionSocketM.default : SectionSocketM :=
  ⟨none, none, none, none, none⟩

/-- The source: `SocketPortConf` — port kind, parsed address, and the
original listen string. -/
structure SocketPortConfM where
  p_type : PortType
  sa : SocketAddressM
  listen : String
deriving DecidableEq, Repr

/-- State owned by `SocketConfig`: the original section data, the processed
service reference (its target name; the source field of `UnitRef` is the
owner's id and carries no information of its own), and the processed port
list.  The kill context is resolved separately and never reset. -/
structure SocketConfigM where
  data : SectionSocketM
  serviceTarget : Option String
  ports : List SocketPortConfM
deriving DecidableEq, Repr

/-- The source: `SocketConfig::reset` — put data, service reference and port
list back to their defaults (`db_update` only persists). -/
def SocketConfigM.reset : SocketConfigM :=
  ⟨SectionSocketM.default, none, []⟩

/-- The source: `SocketConfig::parse_sockets` — walk the listen strings,
skipping empty ones; parse each and push a `PortType::Socket` port; stop at
the first parse failure. -/
def parse_sockets (env : ConfigEnv) (listens : List String) (ty : SockType)
    (c : SocketConfigM) : SocketConfigM × Except ConfErr Unit :=
  match listens with
  | [] => (c, Except.ok ())
  | v :: rest =>
    if v = "" then parse_sockets env rest ty c
    else
      match parse_socket_address env v ty with
      | Except.ok sa =>
        parse_sockets env rest ty { c with ports := c.ports ++ [⟨PortType.Socket, sa, v⟩] }
      | Except.error _ => (c, Except.error ConfErr.parseSocketFailed)

/-- The source: the netlink arm of `SocketConfig::parse_listen_socket` — walk
the netlink strings, skipping empty ones; a parse failure is reported as an
error (the source's messages are not distinguished here), success pushes a
`PortType::Socket` port. -/
def parse_netlinks (env : ConfigEnv) (listens : List String)
    (c : SocketConfigM) : SocketConfigM × Except ConfErr Unit :=
  match listens with
  | [] => (c, Except.ok ())
  | v :: rest =>
    if v = "" then parse_netlinks env rest c
    else
      match parse_netlink_address env v with
      | Except.ok sa =>
        parse_netlinks env rest { c with ports := c.ports ++ [⟨PortType.Socket, sa, v⟩] }
      | Except.error _ => (c, Except.error ConfErr.parseSocketFailed)

/-- The source: `SocketConfig::parse_port` — streams, then datagrams, then
netlinks, then sequential packets; a missing key contributes nothing; the
first error stops the walk. -/
def parse_port (env : ConfigEnv) (c : SocketConfigM) :
    SocketConfigM × Except ConfErr Unit :=
  let step := fun (acc : SocketConfigM × Except ConfErr Unit)
      (f : SocketConfigM → SocketConfigM × Except ConfErr Unit) =>
    match acc with
    | (c, Except.ok _) => f c
    | e => e
  let s1 := match c.data.ListenStream with
    | some l => parse_sockets env l SockType.Stream c
    | none => (c, Except.ok ())
  let s2 := step s1 fun c => match c.data.ListenDatagram with
    | some l => parse_sockets env l SockType.Datagram c
    | none => (c, Except.ok ())
  let s3 := step s2 fun c => match c.data.ListenNetlink with
    | some l => parse_netlinks env l c
    | none => (c, Except.ok ())
  step s3 fun c => match c.data.ListenSequentialPacket with
    | some l => parse_sockets env l SockType.SeqPacket c
    | none => (c, Except.ok ())

/-- The source: `SocketConfig::parse_service` (with `set_unit_ref` and
`set_ref`) — nothing to do without a `Service=` value; the value must end in
`.service`, must load in the unit manager, and is then recorded as the
reference target (only when an owner is attached; `set_ref` is silent
otherwise). -/
def parse_service (env : ConfigEnv) (c : SocketConfigM) :
    SocketConfigM × Except ConfErr Unit :=
  match c.data.Service with
  | none => (c, Except.ok ())
  | some service =>
    if !(str_ends_with service ".service") then (c, Except.error ConfErr.serviceSuffix)
    else if !(env.loadUnitSuccess service) then (c, Except.error ConfErr.loadUnitFailed)
    else if env.hasOwner then ({ c with serviceTarget := some service }, Except.ok ())
    else (c, Except.ok ())

/-- The source: `SocketConfig::load`, after the raw section data has been
read by the configuration builder — record the raw data, then parse the
service reference and the ports; when either fails, reset the whole
configuration and return `ret1.and(ret2)`, which is the first error; on
success keep the processed state.  (`parse_kill_context` touches only the
kill context, which is neither reset nor observed here; `db_update` only
persists.) -/
def socket_config_load (env : ConfigEnv) (raw : SectionSocketM)
    (c : SocketConfigM) : SocketConfigM × Except ConfErr Unit :=
  let c1 := { c with data := raw }
  let s1 := parse_service env c1
  let s2 := parse_port env s1.1
  match s1.2, s2.2 with
  | Except.ok _, Except.ok _ => (s2.1, Except.ok ())
  | Except.error e, _ => (SocketConfigM.reset, Except.error e)
  | _, Except.error e => (SocketConfigM.reset, Except.error e)

/-! ## Bind sequence (`SocketAddress::socket_listen` in `config.rs`) -/

/-- Syscalls `socket_listen` can issue, recorded as a trace.  `closeCall`
never appears in the traces the source produces; it is part of the alphabet
so that its absence is expressible. -/
inductive Sys
  | socketCall (fam : AddressFamily) (ty : SockType) (flags : Nat) (proto : Option Nat)
  | setsockoptReuseAddr (fd : Int)
  | createDirAll (parent : String)
  | bindCall (fd : Int)
  | unlinkCall (p : String)
  | listenCall (fd : Int) (backlog : Nat)
  | closeCall (fd : Int)
deriving DecidableEq, Repr

/-- Kernel-side outcomes of the syscalls `socket_listen` makes, in program
order (`fs::create_dir_all` failure is mapped to `EINVAL` by the source). -/
structure ListenEnv where
  socketResult : Except Errno Int
  setsockoptResult : Except Errno Unit
  createDirOk : Bool
  bind1 : Except Errno Unit
  bind2 : Except Errno Unit
  listenResult : Except Errno Unit

/-- The parent directory of a path, `Path::parent` (for the absolute
pathname sockets this code binds). -/
def parent_dir (p : String) : String :=
  let rev := p.toList.reverse.dropWhile (fun c => c ≠ '/')
  let par := String.mk (rev.drop 1).reverse
  if par = "" then "/" else par

/-- The tail of `socket_listen`: `listen(backlog)` exactly when the address
can accept, then return the descriptor. -/
def socket_listen_tail (env : ListenEnv) (a : SocketAddressM) (backlog : Nat)
    (fd : Int) (tr : List Sys) : Except Errno Int × List Sys :=
  if can_accept a.sa_type then
    match env.listenResult with
    | Except.error e => (Except.error e, tr ++ [Sys.listenCall fd backlog])
    | Except.ok _ => (Except.ok fd, tr ++ [Sys.listenCall fd backlog])
  else (Except.ok fd, tr)

/-- The source: `SocketAddress::socket_listen` — open a socket of the
address's family, type and protocol with the given flags; set `SO_REUSEADDR`;
for a pathname UNIX address create the parent directory (failure becomes
`EINVAL`), bind, and only on `EADDRINUSE` unlink the path and bind once more
(any other error of that first bind is silently discarded by the `if let`);
for every other address bind once, propagating failure; finally listen when
the address can accept.  No branch ever closes the descriptor. -/
def socket_listen (env : ListenEnv) (a : SocketAddressM) (flags : Nat)
    (backlog : Nat) : Except Errno Int × List Sys :=
  let t0 := [Sys.socketCall a.sock_addr.family a.sa_type flags a.protocol]
  match env.socketResult with
  | Except.error e => (Except.error e, t0)
  | Except.ok fd =>
    let t1 := t0 ++ [Sys.setsockoptReuseAddr fd]
    match env.setsockoptResult with
    | Except.error e => (Except.error e, t1)
    | Except.ok _ =>
      match a.sock_addr.path with
      | some p =>
        let t2 := t1 ++ [Sys.createDirAll (parent_dir p)]
        if !env.createDirOk then (Except.error Errno.EINVAL, t2)
        else
          match env.bind1 with
          | Except.error Errno.EADDRINUSE =>
            let t3 := t2 ++ [Sys.bindCall fd, Sys.unlinkCall p]
            match env.bind2 with
            | Except.error e => (Except.error e, t3 ++ [Sys.bindCall fd])
            | Except.ok _ => socket_listen_tail env a backlog fd (t3 ++ [Sys.bindCall fd])
          | _ => socket_listen_tail env a backlog fd (t2 ++ [Sys.bindCall fd])
      | none =>
        match env.bind1 with
        | Except.error e => (Except.error e, t1 ++ [Sys.bindCall fd])
        | Except.ok _ => socket_listen_tail env a backlog fd (t1 ++ [Sys.bindCall fd])

/-! ## Job transaction engine (`job_transaction.rs`) -/

/-- Job kinds, `JobKind` in `job_entry.rs` (as the spec's data model lists
them). -/
inductive JobKind
  | JobStart | JobStop | JobReload | JobRestart | JobVerify
  | JobTryRestart | JobTryReload | JobNop
deriving DecidableEq, Repr

/-- Job modes, `JobMode`. -/
inductive JobMode
  | JobFail | JobReplace | JobReplaceIrreversible | JobIsolate | JobFlush
  | JobIgnoreDependencies | JobIgnoreRequirements | JobTrigger
deriving DecidableEq, Repr

/-- Job errors, `JobErrno`. -/
inductive JobErrno
  | JobErrInput | JobErrBadRequest | JobErrConflict | JobErrNotExisted
deriving DecidableEq, Repr

/-- Dependency-relation atoms used by the transaction code,
`UnitRelationAtom`. -/
inductive UnitRelationAtom
  | UnitAtomPullInStart | UnitAtomPullInStartIgnored | UnitAtomPullInVerify
  | UnitAtomPullInStop | UnitAtomPullInStopIgnored | UnitAtomPropagateStop
  | UnitAtomPropagateRestart | UnitAtomPropagatesReloadTo | UnitAtomTriggeredBy
  | UnitAtomPropagateStartFailure | UnitAtomPropagateStopFailure
deriving DecidableEq, Repr

/-- Modelled from the spec: the suspend partition of a `JobTable`
(`job_table.rs` is not among the sources) — the in-construction transaction,
holding at most one job per unit, each a (unit, kind) pair. -/
structure JobTableM where
  suspends : List (String × JobKind)
deriving DecidableEq, Repr

/-- Modelled from the spec: `JobTable::is_unit_empty` — no suspended job is
assigned to the unit. -/
def is_unit_empty (t : JobTableM) (u : String) : Bool :=
  t.suspends.all fun j => j.1 ≠ u

/-- Modelled from the spec: `JobTable::record_suspend` — insert the job if
the unit has none yet and report whether the job is new.  (When a job for
the unit already exists the source consults the merge matrix; the claims
settled here never reach that path, and the model keeps the existing job.) -/
def record_suspend (t : JobTableM) (u : String) (k : JobKind) : JobTableM × Bool :=
  if is_unit_empty t u then ({ suspends := t.suspends ++ [(u, k)] }, true)
  else (t, false)

/-- Environment of the transaction code: the dependency store
(`dep.gets_atom`), and the per-unit answers of `is_load_complete`,
`try_load` and `job_is_unit_applicable` (the last lives in `job_entry.rs`,
not among the sources, and is supplied as an oracle). -/
structure JobCtx where
  getsAtom : String → UnitRelationAtom → List String
  isLoadComplete : String → Bool
  tryLoad : String → Except ErrU Unit
  jobIsUnitApplicable : JobKind → String → Bool

/-- The source: `trans_expand_check_input` — the unit must be load-complete;
for any kind but stop the result of `try_load` is returned with `EBadR`
mapped to `JobErrBadRequest` and any other error to `JobErrInput`; a stop
job must additionally be applicable to the unit. -/
def trans_expand_check_input (ctx : JobCtx) (u : String) (k : JobKind) :
    Except JobErrno Unit :=
  if !ctx.isLoadComplete u then Except.error JobErrno.JobErrInput
  else if k ≠ JobKind.JobStop then
    match ctx.tryLoad u with
    | Except.ok _ => Except.ok ()
    | Except.error ErrU.UnitActionEBadR => Except.error JobErrno.JobErrBadRequest
    | Except.error _ => Except.error JobErrno.JobErrInput
  else if !ctx.jobIsUnitApplicable k u then Except.error JobErrno.JobErrInput
  else Except.ok ()

/-- The source: `trans_is_expand` — no expansion for nop jobs, for jobs that
already existed, or under the two ignore modes. -/
def trans_is_expand (k : JobKind) (isNew : Bool) (mode : JobMode) : Bool :=
  if k = JobKind.JobNop then false
  else if !isNew then false
  else if mode = JobMode.JobIgnoreDependencies || mode = JobMode.JobIgnoreRequirements then
    false
  else true

/-- The expansion loops of `trans_expand_start` / `trans_expand_stop` /
`trans_expand_reload`: recursively expand the given kind over each listed
unit; with `tolerateAll` every error is swallowed (the `Ignored` atom lists
and the reload propagation), otherwise only `JobErrBadRequest` is tolerated. -/
def trans_expand_over
    (rec2 : JobTableM → String → JobKind → Option (JobTableM × Except JobErrno Unit))
    (tolerateAll : Bool) (others : List String) (k : JobKind) (t : JobTableM) :
    Option (JobTableM × Except JobErrno Unit) :=
  match others with
  | [] => some (t, Except.ok ())
  | o :: rest =>
    match rec2 t o k with
    | none => none
    | some (t2, Except.ok _) => trans_expand_over rec2 tolerateAll rest k t2
    | some (t2, Except.error e) =>
      if tolerateAll || e = JobErrno.JobErrBadRequest then
        trans_expand_over rec2 tolerateAll rest k t2
      else some (t2, Except.error e)

/-- Sequence two expansion stages, stopping at the first reported error. -/
def trans_seq (a : Option (JobTableM × Except JobErrno Unit))
    (f : JobTableM → Option (JobTableM × Except JobErrno Unit)) :
    Option (JobTableM × Except JobErrno Unit) :=
  match a with
  | none => none
  | some (t, Except.ok _) => f t
  | some e => some e

/-- The source: `job_trans_expand` — check the input, record the job in the
suspend table, and if expansion applies recurse over the dependency atom
lists of the job's kind (start over the five pull-in lists, stop over
propagate-stop, restart as start plus try-restart over propagate-restart,
reload as try-reload over propagates-reload-to).  Recursion depth is bounded
by explicit fuel; `none` means the fuel ran out (the source's recursion is
bounded by the dependency graph instead). -/
def job_trans_expand (ctx : JobCtx) (mode : JobMode) :
    Nat → JobTableM → String → JobKind → Option (JobTableM × Except JobErrno Unit)
  | 0, _, _, _ => none
  | fuel + 1, t, u, k =>
    match trans_expand_check_input ctx u k with
    | Except.error e => some (t, Except.error e)
    | Except.ok _ =>
      let (t, isNew) := record_suspend t u k
      if trans_is_expand k isNew mode then
        let rec2 := job_trans_expand ctx mode fuel
        match k with
        | JobKind.JobStart =>
          let s1 := trans_expand_over rec2 false
            (ctx.getsAtom u UnitRelationAtom.UnitAtomPullInStart) JobKind.JobStart t
          let s2 := trans_seq s1 fun t => trans_expand_over rec2 true
            (ctx.getsAtom u UnitRelationAtom.UnitAtomPullInStartIgnored) JobKind.JobStart t
          let s3 := trans_seq s2 fun t => trans_expand_over rec2 false
            (ctx.getsAtom u UnitRelationAtom.UnitAtomPullInVerify) JobKind.JobVerify t
          let s4 := trans_seq s3 fun t => trans_expand_over rec2 false
            (ctx.getsAtom u UnitRelationAtom.UnitAtomPullInStop) JobKind.JobStop t
          trans_seq s4 fun t => trans_expand_over rec2 true
            (ctx.getsAtom u UnitRelationAtom.UnitAtomPullInStopIgnored) JobKind.JobStop t
        | JobKind.JobStop =>
          trans_expand_over rec2 false
            (ctx.getsAtom u UnitRelationAtom.UnitAtomPropagateStop) JobKind.JobStop t
        | JobKind.JobRestart =>
          let s1 := trans_expand_over rec2 false
            (ctx.getsAtom u UnitRelationAtom.UnitAtomPullInStart) JobKind.JobStart t
          let s2 := trans_seq s1 fun t => trans_expand_over rec2 true
            (ctx.getsAtom u UnitRelationAtom.UnitAtomPullInStartIgnored) JobKind.JobStart t
          let s3 := trans_seq s2 fun t => trans_expand_over rec2 false
            (ctx.getsAtom u UnitRelationAtom.UnitAtomPullInVerify) JobKind.JobVerify t
          let s4 := trans_seq s3 fun t => trans_expand_over rec2 false
            (ctx.getsAtom u UnitRelationAtom.UnitAtomPullInStop) JobKind.JobStop t
          let s5 := trans_seq s4 fun t => trans_expand_over rec2 true
            (ctx.getsAtom u UnitRelationAtom.UnitAtomPullInStopIgnored) JobKind.JobStop t
          trans_seq s5 fun t => trans_expand_over rec2 false
            (ctx.getsAtom u UnitRelationAtom.UnitAtomPropagateRestart) JobKind.JobTryRestart t
        | JobKind.JobReload =>
          trans_expand_over rec2 true
            (ctx.getsAtom u UnitRelationAtom.UnitAtomPropagatesReloadTo) JobKind.JobTryReload t
        | _ => some (t, Except.ok ())
      else some (t, Except.ok ())

/-- The trigger loop of `trans_affect_trigger`: for each unit related by
`TriggeredBy`, skip when `is_unit_empty` fails for `u` — the trigger target
itself, exactly as the source tests it — and otherwise expand a stop job for
the related unit, ignoring its errors. -/
def trans_affect_trigger_go
    (rec2 : JobTableM → String → JobKind → Option (JobTableM × Except JobErrno Unit))
    (u : String) : List String → JobTableM → Option (JobTableM × Except JobErrno Unit)
  | [], t => some (t, Except.ok ())
  | o :: rest, t =>
    if !is_unit_empty t u then trans_affect_trigger_go rec2 u rest t
    else
      match rec2 t o JobKind.JobStop with
      | none => none
      | some (t2, _) => trans_affect_trigger_go rec2 u rest t2

/-- The source: `trans_affect_trigger` — iterate the units related to the
config's unit by `TriggeredBy` and append a stop job for each, except that
the " there is something assigned " guard consults `is_unit_empty` on the
config's own unit rather than on the related unit.  The source's two
`assert_eq!` preconditions (stop kind, trigger mode) appear as theorem
hypotheses. -/
def trans_affect_trigger (ctx : JobCtx) (mode : JobMode) (fuel : Nat)
    (u : String) (t : JobTableM) : Option (JobTableM × Except JobErrno Unit) :=
  trans_affect_trigger_go (job_trans_expand ctx mode fuel) u
    (ctx.getsAtom u UnitRelationAtom.UnitAtomTriggeredBy) t

/-- Modelled from the spec: two job kinds conflict when one acts as a start
and the other as a stop; restart counts as both. -/
def job_kinds_conflict (a b : JobKind) : Bool :=
  let startish := fun k => k = JobKind.JobStart || k = JobKind.JobRestart
  let stopish := fun k => k = JobKind.JobStop || k = JobKind.JobRestart
  (startish a && stopish b) || (stopish a && startish b)

/-- Modelled from the spec: `JobTable::is_suspends_conflict` — some two
distinct suspended jobs of the same unit have conflicting kinds. -/
def is_suspends_conflict (t : JobTableM) : Bool :=
  t.suspends.enum.any fun a =>
    t.suspends.enum.any fun b =>
      a.1 ≠ b.1 && a.2.1 = b.2.1 && job_kinds_conflict a.2.2 b.2.2

/-- Modelled from the spec: `JobTable::is_suspends_conflict_with` — some job
of this table conflicts with a staged job of the same unit. -/
def is_suspends_conflict_with (t stage : JobTableM) : Bool :=
  t.suspends.any fun r =>
    stage.suspends.any fun s => r.1 = s.1 && job_kinds_conflict r.2 s.2

/-- Modelled from the spec: `JobTable::is_suspends_replace_with` — every
conflict between a job of this table and a staged job is individually
replaceable; the replaceability relation itself (the partially documented
merge matrix of `job_entry.rs`) is a parameter. -/
def is_suspends_replace_with
    (repl : String × JobKind → String × JobKind → Bool) (t stage : JobTableM) : Bool :=
  t.suspends.all fun r =>
    stage.suspends.all fun s =>
      if r.1 = s.1 && job_kinds_conflict r.2 s.2 then repl r s else true

/-- The source: `trans_verify_is_destructive` — succeed when the staged jobs
do not conflict with the committed (running) jobs; on conflict succeed only
when the mode is not fail and every conflict is replaceable; otherwise the
conflict error.  The leading `assert!` of the source appears as a theorem
hypothesis. -/
def trans_verify_is_destructive
    (repl : String × JobKind → String × JobKind → Bool)
    (stage jobs : JobTableM) (mode : JobMode) : Except JobErrno Unit :=
  if !is_suspends_conflict_with jobs stage then Except.ok ()
  else if mode ≠ JobMode.JobFail && is_suspends_replace_with repl jobs stage then
    Except.ok ()
  else Except.error JobErrno.JobErrConflict

/-! ## Child-pid bookkeeping (`unit_child.rs`) -/

/-- State of the child manager: the `pid → unit` index (`watch_pids`, a
hash map modelled as an association list with unique keys), and the union of
the per-unit `child_pids` sets as (unit, pid) pairs (`UeChild`; its set
semantics — insert on `add_pids`, remove on `remove_pids` — is modelled from
the spec, `uu_child.rs` not being among the sources). -/
structure ChildStateM where
  watchPids : List (Int × String)
  childPids : List (String × Int)
deriving DecidableEq, Repr

/-- Lookup in the pid index, `HashMap::get`. -/
def lookup_pid (l : List (Int × String)) (p : Int) : Option String :=
  match l with
  | [] => none
  | (q, u) :: rest => if q = p then some u else lookup_pid rest p

/-- The source: `UnitChild::add_watch_pid` — `watch_pids.insert(pid, unit)`
(which silently replaces any previous owner of the pid) and
`unit.child_add_pids(pid)` (set insert on the named unit only). -/
def add_watch_pid (s : ChildStateM) (id : String) (pid : Int) : ChildStateM :=
  { watchPids := (s.watchPids.filter fun e => e.1 ≠ pid) ++ [(pid, id)],
    childPids := if (id, pid) ∈ s.childPids then s.childPids else s.childPids ++ [(id, pid)] }

/-- The source: `UnitChild::unwatch_pid` — `watch_pids.remove(&pid)` and
`unit.child_remove_pids(pid)` (set removal on the named unit only). -/
def unwatch_pid (s : ChildStateM) (id : String) (pid : Int) : ChildStateM :=
  { watchPids := s.watchPids.filter fun e => e.1 ≠ pid,
    childPids := s.childPids.filter fun e => e ≠ (id, pid) }

/-- One child-manager operation. -/
inductive ChildOp
  | add (id : String) (pid : Int)
  | unwatch (id : String) (pid : Int)
deriving DecidableEq, Repr

/-- Apply one operation. -/
def child_apply (s : ChildStateM) : ChildOp → ChildStateM
  | ChildOp.add id pid => add_watch_pid s id pid
  | ChildOp.unwatch id pid => unwatch_pid s id pid

/-- Apply a sequence of operations. -/
def child_run (s : ChildStateM) : List ChildOp → ChildStateM
  | [] => s
  | op :: rest => child_run (child_apply s op) rest

/-- The empty child-manager state. -/
def child_empty : ChildStateM := ⟨[], []⟩

/-- A sequence of operations is well-formed when every operation names the
unit the pid is currently attributed to (or the pid is unattributed). -/
def child_wf (s : ChildStateM) : List ChildOp → Bool
  | [] => true
  | op :: rest =>
    let ok := match op with
      | ChildOp.add id pid => lookup_pid s.watchPids pid = none ∨ lookup_pid s.watchPids pid = some id
      | ChildOp.unwatch id pid => lookup_pid s.watchPids pid = none ∨ lookup_pid s.watchPids pid = some id
    ok && child_wf (child_apply s op) rest

/-! ## Invariants and derived specification-side definitions -/

/-- The event-source invariant of a socket manager state: in `Listening`
every port with an open descriptor is registered and enabled in the event
loop, and in every other state no port event source is enabled. -/
def SockInv (m : SocketMngM) : Prop :=
  (m.state = SocketState.Listening →
    ∀ p ∈ m.ports, 0 ≤ p.fd → p.registered = true ∧ p.enabled = true)
  ∧ (m.state ≠ SocketState.Listening → ∀ p ∈ m.ports, p.enabled = false)

/-- One externally triggerable operation of the socket state machine: the
sub-unit start and stop entry points, a child exit, or an I/O dispatch on a
port.  The reload-time entry points (`entry_coldplug`, which re-registers
sources wholesale, and `entry_clear`, which releases them) sit outside the
state machine and are not steps. -/
inductive SockStep : SocketMngM → SocketMngM → Prop
  | start (env : SocketMngEnv) (m : SocketMngM) : SockStep m (socket_start env m).1
  | stop (env : SocketMngEnv) (force : Bool) (m : SocketMngM) :
      SockStep m (socket_stop env force m).1
  | sigchld (env : SocketMngEnv) (ws : WaitStatusM) (m m' : SocketMngM)
      (h : sigchld_event env ws m = some m') : SockStep m m'
  | dispatch (env : SocketMngEnv) (pt : PortType) (st : SockType) (m : SocketMngM) :
      SockStep m (dispatch_io env pt st m).mng

/-- States reachable from a freshly built socket manager (ports with no
descriptor, nothing registered) by the state-machine operations. -/
inductive SockReach : SocketMngM → Prop
  | init (ports0 : List SocketPortM)
      (h : ∀ p ∈ ports0, p.fd = -1 ∧ p.registered = false ∧ p.enabled = false) :
      SockReach (socket_mng_new ports0)
  | step {m m' : SocketMngM} (hr : SockReach m) (hs : SockStep m m') : SockReach m'

/-- Recognizer for the close syscall in a `socket_listen` trace. -/
def sys_is_close : Sys → Bool
  | Sys.closeCall _ => true
  | _ => false

/-- The bijection property of the child manager: every pid in a unit's child
set is mapped back to that unit by the pid index, and no pid sits in two
units' child sets. -/
def child_bijection (s : ChildStateM) : Prop :=
  (∀ u p, (u, p) ∈ s.childPids → lookup_pid s.watchPids p = some u)
  ∧ (∀ u v p, (u, p) ∈ s.childPids → (v, p) ∈ s.childPids → u = v)

/-- The two-sided child-manager invariant used to establish
`child_bijection`: the child sets and the pid index mirror each other. -/
def child_mirror (s : ChildStateM) : Prop :=
  ∀ u p, ((u, p) ∈ s.childPids ↔ lookup_pid s.watchPids p = some u)

/-- The ports that one listen list declares (empty strings skipped), when
every entry parses; `none` when some entry fails to parse. -/
def parse_sockets_expected (env : ConfigEnv) (listens : List String) (ty : SockType) :
    Option (List SocketPortConfM) :=
  match listens with
  | [] => some []
  | v :: rest =>
    if v = "" then parse_sockets_expected env rest ty
    else
      match parse_socket_address env v ty with
      | Except.ok sa =>
        (parse_sockets_expected env rest ty).map
          (fun d => ⟨PortType.Socket, sa, v⟩ :: d)
      | Except.error _ => none

/-- Same as `parse_sockets_expected` for the netlink list. -/
def parse_netlinks_expected (env : ConfigEnv) (listens : List String) :
    Option (List SocketPortConfM) :=
  match listens with
  | [] => some []
  | v :: rest =>
    if v = "" then parse_netlinks_expected env rest
    else
      match parse_netlink_address env v with
      | Except.ok sa =>
        (parse_netlinks_expected env rest).map
          (fun d => ⟨PortType.Socket, sa, v⟩ :: d)
      | Except.error _ => none

/-- Append under `Option`. -/
def opt_append {α : Type} : Option (List α) → Option (List α) → Option (List α)
  | some a, some b => some (a ++ b)
  | _, _ => none

/-- Every port a `[Socket]` section declares, in the order `parse_port`
records them (streams, datagrams, netlinks, sequential packets); `none` when
some declared address fails to parse. -/
def declared_ports (env : ConfigEnv) (sec : SectionSocketM) :
    Option (List SocketPortConfM) :=
  let seg := fun (o : Option (List String)) (ty : SockType) =>
    match o with
    | some l => parse_sockets_expected env l ty
    | none => some ([] : List SocketPortConfM)
  let s3 := match sec.ListenNetlink with
    | some l => parse_netlinks_expected env l
    | none => some []
  opt_append (opt_append (opt_append (seg sec.ListenStream SockType.Stream)
    (seg sec.ListenDatagram SockType.Datagram)) s3)
    (seg sec.ListenSequentialPacket SockType.SeqPacket)

/-! ## Concrete fixtures used by witnesses and counterexamples -/

/-- A benign environment: an owner `app.socket` triggering `app.service`, no
pending stop job, accept mode on, every external call succeeding, `accept`
returning descriptor 7. -/
def env0 : SocketMngEnv :=
  { hasOwner := true
    ownerId := "app.socket"
    umHasStopJob := fun _ => false
    relationActiveOrPending := fun _ => false
    umStartUnitOk := fun _ => true
    unitRefTarget := some "app.service"
    accept := true
    execCmds := fun _ => none
    spawnOk := fun _ => true
    killOk := fun _ => true
    openPort := fun _ => Except.ok 3
    acceptResult := Except.ok 7
    unitEnabledOk := true
    testStartLimit := true }

/-- `env0` with a pending stop job on the socket unit itself (and on no
other unit, in particular not on the triggered `app.service`). -/
def env_stopjob : SocketMngEnv :=
  { env0 with umHasStopJob := fun i => i == "app.socket" }

/-- A socket manager sitting in `Listening` with no ports. -/
def m_listening : SocketMngM :=
  { state := SocketState.Listening, result := SocketResult.Success,
    controlCommand := [], refused := 0, ports := [] }

/-- A socket manager sitting in `Dead`. -/
def m_dead : SocketMngM :=
  { state := SocketState.Dead, result := SocketResult.Success,
    controlCommand := [], refused := 0, ports := [] }

/-- A socket manager sitting in `StartPre` (activating). -/
def m_startpre : SocketMngM :=
  { state := SocketState.StartPre, result := SocketResult.Success,
    controlCommand := [], refused := 0, ports := [] }

/-- A bind environment where every syscall succeeds and `socket` returns 4. -/
def listen_env_ok : ListenEnv :=
  { socketResult := Except.ok 4, setsockoptResult := Except.ok ()
    createDirOk := true, bind1 := Except.ok (), bind2 := Except.ok ()
    listenResult := Except.ok () }

/-- `listen_env_ok` with `setsockopt` failing (errno 13, `EACCES`). -/
def listen_env_sockopt_fail : ListenEnv :=
  { listen_env_ok with setsockoptResult := Except.error (Errno.other 13) }

/-- `listen_env_ok` with the first `bind` failing with errno 1 (`EPERM`),
which is not `EADDRINUSE`. -/
def listen_env_bind_eperm : ListenEnv :=
  { listen_env_ok with bind1 := Except.error (Errno.other 1) }

/-- A sequential-packet INET6 address. -/
def addr_seq : SocketAddressM := ⟨SockAddrM.inet6 0 9000, SockType.SeqPacket, none⟩

/-- A stream pathname UNIX address. -/
def addr_unix : SocketAddressM := ⟨SockAddrM.unixPath "/run/app.sock", SockType.Stream, none⟩

/-- A dependency context where `app.socket` is triggered-by `t1.service`
and everything is loadable. -/
def job_ctx : JobCtx :=
  { getsAtom := fun u a =>
      if u = "app.socket" ∧ a = UnitRelationAtom.UnitAtomTriggeredBy then ["t1.service"] else []
    isLoadComplete := fun _ => true
    tryLoad := fun _ => Except.ok ()
    jobIsUnitApplicable := fun _ _ => true }

/-- The suspend table right after expanding a stop job on `app.socket`. -/
def stage_c6 : JobTableM := ⟨[("app.socket", JobKind.JobStop)]⟩


/-- A configuration environment: IPv6 supported, the standard address parser
accepting nothing extra, a one-entry netlink family table, every unit
loadable, an owner attached. -/
def conf_env : ConfigEnv :=
  { ipv6Supported := true
    stdParseSocketAddr := fun _ => none
    netlinkFamily := fun s => if s = "route" then some 0 else none
    loadUnitSuccess := fun _ => true
    hasOwner := true
    ownerId := "app.socket" }

/-- A well-formed raw section: a service reference and one stream listener. -/
def raw_ok : SectionSocketM :=
  { Service := some "app.service", ListenStream := some ["12345"],
    ListenDatagram := none, ListenNetlink := none, ListenSequentialPacket := none }

/-- A raw section whose service reference does not end in `.service`. -/
def raw_badservice : SectionSocketM :=
  { SectionSocketM.default with Service := some "app.target" }

/-- An empty processed configuration. -/
def cfg_empty : SocketConfigM := ⟨SectionSocketM.default, none, []⟩

/-! ## Theorems -/

/-- C1: for a socket unit in `Listening`, on I/O-ready with `Accept=true`, a
socket-kind port and a stream (accept-capable) address, `dispatch_io` calls
`accept` once (here returning descriptor 7) and applies the per-connection
socket options to the accepted descriptor — but then passes `-1` to
`enter_running`, not the accepted descriptor: the inner `let afd` in the
source shadows the outer `afd` binding, so the accepted descriptor is
dropped.  With a seqpacket address the accept path is not even taken (the
source's `can_accept` admits only stream), and `enter_running(-1)` is called
directly. -/
theorem dispatch_io_drops_accepted_fd :
    (dispatch_io env0 PortType.Socket SockType.Stream m_listening).accepted = some 7
    ∧ (dispatch_io env0 PortType.Socket SockType.Stream m_listening).sockoptApplied = some 7
    ∧ (dispatch_io env0 PortType.Socket SockType.Stream m_listening).enterRunningFd = some (-1)
    ∧ (dispatch_io env0 PortType.Socket SockType.Stream m_listening).mng.state
        = SocketState.Running
    ∧ (dispatch_io env0 PortType.Socket SockType.SeqPacket m_listening).accepted = none
    ∧ (dispatch_io env0 PortType.Socket SockType.SeqPacket m_listening).enterRunningFd
        = some (-1) := by
  refine ⟨rfl, rfl, rfl, rfl, rfl, rfl⟩

/-- C6: in trigger mode, with the target unit `app.socket` already holding a
staged stop job (as it always does once expansion has run) and `t1.service`
related to it by `TriggeredBy` and holding no staged job, `trans_affect_trigger`
appends nothing — the guard tests `is_unit_empty` on the target unit instead
of on the related unit.  Starting from an empty suspend table (target unit
job-free) the very same call does append the stop job, confirming that the
guard on the target is what blocks it. -/
theorem trans_affect_trigger_wrong_guard :
    trans_affect_trigger job_ctx JobMode.JobTrigger 10 "app.socket" stage_c6 =
      some (stage_c6, Except.ok ())
    ∧ is_unit_empty stage_c6 "t1.service" = true
    ∧ trans_affect_trigger job_ctx JobMode.JobTrigger 10 "app.socket" ⟨[]⟩ =
      some (⟨[("t1.service", JobKind.JobStop)]⟩, Except.ok ()) := by
  refine ⟨rfl, rfl, rfl⟩

/-- C7: given the source's `assert!` precondition (the committed table is
conflict-free), the destructive check succeeds exactly when either no staged
job conflicts with a committed job of the same unit, or the mode is not
`Fail` and every conflict is individually replaceable; every failure is the
conflict error. -/
theorem trans_verify_is_destructive_gate
    (repl : String × JobKind → String × JobKind → Bool)
    (stage jobs : JobTableM) (mode : JobMode)
    (_hassert : is_suspends_conflict jobs = false) :
    (trans_verify_is_destructive repl stage jobs mode = Except.ok () ↔
      (is_suspends_conflict_with jobs stage = false ∨
        (mode ≠ JobMode.JobFail ∧ is_suspends_replace_with repl jobs stage = true)))
    ∧ (trans_verify_is_destructive repl stage jobs mode = Except.ok () ∨
      trans_verify_is_destructive repl stage jobs mode =
        Except.error JobErrno.JobErrConflict) := by
  unfold trans_verify_is_destructive
  by_cases h1 : is_suspends_conflict_with jobs stage
  · by_cases h2 : mode = JobMode.JobFail
    · simp [h1, h2]
    · by_cases h3 : is_suspends_replace_with repl jobs stage <;> simp [h1, h2, h3]
  · simp [h1]

/-- Witness for C7 at a concrete conflict-free pair of tables. -/
theorem trans_verify_is_destructive_gate_w :
    trans_verify_is_destructive (fun _ _ => true) ⟨[]⟩ ⟨[]⟩ JobMode.JobFail =
      Except.ok () :=
  (trans_verify_is_destructive_gate (fun _ _ => true) ⟨[]⟩ ⟨[]⟩ JobMode.JobFail
    rfl).1.mpr (Or.inl rfl)


/-- Looking a key up after all entries with that key were filtered out gives
nothing. -/
theorem lookup_pid_filter_self (l : List (Int × String)) (pid : Int) :
    lookup_pid (l.filter fun e => e.1 ≠ pid) pid = none := by
  induction l with
  | nil => rfl
  | cons e rest ih =>
    simp only [List.filter_cons, ne_eq, decide_not] at ih ⊢
    by_cases he : e.1 = pid <;> simp [he, lookup_pid, ih]

/-- Filtering a different key out does not change a lookup. -/
theorem lookup_pid_filter_ne (l : List (Int × String)) (pid p : Int) (h : p ≠ pid) :
    lookup_pid (l.filter fun e => e.1 ≠ pid) p = lookup_pid l p := by
  induction l with
  | nil => rfl
  | cons e rest ih =>
    simp only [List.filter_cons, ne_eq, decide_not] at ih ⊢
    by_cases he : e.1 = pid
    · have hne : ¬ e.1 = p := by rw [he]; exact fun hc => h hc.symm
      have hne2 : ¬ pid = p := fun hc => h hc.symm
      simp [he, lookup_pid, hne, hne2, ih]
    · simp [he, lookup_pid, ih]

/-- Lookup through the insert pattern of `add_watch_pid` (filter the key
out, then append the new entry): the key now maps to the new unit, every
other key is unchanged. -/
theorem lookup_pid_insert (l : List (Int × String)) (pid : Int) (id : String)
    (p : Int) :
    lookup_pid ((l.filter fun e => e.1 ≠ pid) ++ [(pid, id)]) p =
      if p = pid then some id else lookup_pid l p := by
  induction l with
  | nil =>
    by_cases h : p = pid
    · simp [lookup_pid, h]
    · have hne : ¬ pid = p := fun hc => h hc.symm
      simp [lookup_pid, h, hne]
  | cons e rest ih =>
    simp only [List.filter_cons, ne_eq, decide_not] at ih ⊢
    by_cases he : e.1 = pid
    · by_cases hp : p = pid
      · subst hp
        simp [he, ih]
      · have hne : ¬ e.1 = p := by rw [he]; exact fun hc => hp hc.symm
        have hne2 : ¬ pid = p := fun hc => hp hc.symm
        simp [he, ih, hp, lookup_pid, hne, hne2]
    · by_cases hp : e.1 = p
      · have h2 : ¬ p = pid := by rw [← hp]; exact fun hc => he hc
        simp [he, lookup_pid, hp, h2]
      · simp [he, lookup_pid, hp, ih]

/-- The mirror invariant survives `add_watch_pid` when the pid is currently
unattributed or already attributed to the same unit. -/
theorem child_mirror_add (s : ChildStateM) (id : String) (pid : Int)
    (hInv : child_mirror s)
    (hwf : lookup_pid s.watchPids pid = none ∨ lookup_pid s.watchPids pid = some id) :
    child_mirror (add_watch_pid s id pid) := by
  intro u p
  unfold add_watch_pid
  simp only
  rw [lookup_pid_insert]
  by_cases hp : p = pid
  · rw [if_pos hp]
    subst hp
    by_cases hmem : (id, p) ∈ s.childPids
    · have hl : lookup_pid s.watchPids p = some id := (hInv id p).mp hmem
      rw [if_pos hmem, hInv u p, hl]
    · have hl : lookup_pid s.watchPids p = none := by
        rcases hwf with h | h
        · exact h
        · exact absurd ((hInv id p).mpr h) hmem
      rw [if_neg hmem]
      simp only [List.mem_append, List.mem_singleton]
      constructor
      · rintro (hin | heq)
        · have hx := (hInv u p).mp hin
          rw [hl] at hx
          exact Option.noConfusion hx
        · rw [Option.some.injEq]
          exact (((Prod.mk.injEq _ _ _ _).mp heq).1).symm
      · intro h
        right
        rw [Option.some.injEq] at h
        rw [← h]
  · rw [if_neg hp]
    have hmm : (u, p) ∈ s.childPids ++ [(id, pid)] ↔ (u, p) ∈ s.childPids := by
      simp only [List.mem_append, List.mem_singleton]
      constructor
      · rintro (hin | heq)
        · exact hin
        · exact absurd ((Prod.mk.injEq _ _ _ _).mp heq).2 hp
      · exact fun h => Or.inl h
    by_cases hmem : (id, pid) ∈ s.childPids
    · rw [if_pos hmem]
      exact hInv u p
    · rw [if_neg hmem, hmm]
      exact hInv u p

/-- The mirror invariant survives `unwatch_pid` when the pid is currently
unattributed or attributed to the named unit. -/
theorem child_mirror_unwatch (s : ChildStateM) (id : String) (pid : Int)
    (hInv : child_mirror s)
    (hwf : lookup_pid s.watchPids pid = none ∨ lookup_pid s.watchPids pid = some id) :
    child_mirror (unwatch_pid s id pid) := by
  intro u p
  unfold unwatch_pid
  simp only
  by_cases hp : p = pid
  · subst hp
    rw [lookup_pid_filter_self]
    simp only [List.mem_filter]
    constructor
    · rintro ⟨hin, hne⟩
      have hl := (hInv u p).mp hin
      rcases hwf with h | h
      · rw [h] at hl; exact Option.noConfusion hl
      · rw [h, Option.some.injEq] at hl
        subst hl
        simp at hne
    · intro h; exact Option.noConfusion h
  · rw [lookup_pid_filter_ne _ _ _ hp]
    simp only [List.mem_filter]
    constructor
    · rintro ⟨hin, _⟩
      exact (hInv u p).mp hin
    · intro h
      refine ⟨(hInv u p).mpr h, ?_⟩
      simp only [ne_eq, Prod.mk.injEq, not_and, decide_eq_true_eq]
      intro _ hc
      exact hp hc

/-- The mirror invariant survives any well-formed operation sequence. -/
theorem child_mirror_run (ops : List ChildOp) : ∀ s : ChildStateM,
    child_mirror s → child_wf s ops = true → child_mirror (child_run s ops) := by
  induction ops with
  | nil => intro s h _; exact h
  | cons op rest ih =>
    intro s h hwf
    unfold child_wf at hwf
    rw [Bool.and_eq_true] at hwf
    rcases hwf with ⟨hok, hrest⟩
    unfold child_run
    refine ih (child_apply s op) ?_ hrest
    cases op with
    | add id pid =>
      exact child_mirror_add s id pid h (of_decide_eq_true hok)
    | unwatch id pid =>
      exact child_mirror_unwatch s id pid h (of_decide_eq_true hok)

/-- C9 (amended): after any sequence of `add_watch_pid` / `unwatch_pid`
operations in which a pid is never added or unwatched under a unit different
from the one it is currently attributed to, the pid index is a bijection
over the union of the child sets: every pid in a unit's child set maps back
to that unit, and no pid is attributed to two units. -/
theorem child_bijection_of_wf (ops : List ChildOp)
    (h : child_wf child_empty ops = true) :
    child_bijection (child_run child_empty ops) := by
  have hm : child_mirror (child_run child_empty ops) := by
    refine child_mirror_run ops child_empty ?_ h
    intro u p
    simp [child_empty, lookup_pid]
  constructor
  · intro u p hin
    exact (hm u p).mp hin
  · intro u v p hu hv
    have h1 := (hm u p).mp hu
    have h2 := (hm v p).mp hv
    rw [h1, Option.some.injEq] at h2
    exact h2


/-- Witness for C9 (amended) on a one-operation sequence. -/
theorem child_bijection_of_wf_w :
    child_wf child_empty [ChildOp.add "u1" 1] = true
    ∧ child_bijection (child_run child_empty [ChildOp.add "u1" 1]) :=
  ⟨by decide, child_bijection_of_wf [ChildOp.add "u1" 1] (by decide)⟩

/-- C9 (counterexample): the sequence `add_watch_pid(u1, 1)` then
`add_watch_pid(u2, 1)` leaves pid 1 in the child sets of both units while
the pid index maps it to `u2` only — `HashMap::insert` silently overwrites
the previous owner without cleaning its child set, so the claim fails for
this sequence. -/
theorem child_add_overwrite_counterexample :
    ("u1", 1) ∈ (child_run child_empty [ChildOp.add "u1" 1, ChildOp.add "u2" 1]).childPids
    ∧ ("u2", 1) ∈ (child_run child_empty [ChildOp.add "u1" 1, ChildOp.add "u2" 1]).childPids
    ∧ lookup_pid (child_run child_empty [ChildOp.add "u1" 1, ChildOp.add "u2" 1]).watchPids 1
        = some "u2"
    ∧ ¬ ("u1" : String) = "u2" := by
  refine ⟨by decide, by decide, by decide, by decide⟩

/-- When every entry of a listen list parses, `parse_sockets` appends exactly
the declared ports and succeeds. -/
theorem parse_sockets_ok (env : ConfigEnv) (ty : SockType) :
    ∀ (l : List String) (c : SocketConfigM) (d : List SocketPortConfM),
    parse_sockets_expected env l ty = some d →
    parse_sockets env l ty c = ({ c with ports := c.ports ++ d }, Except.ok ()) := by
  intro l
  induction l with
  | nil =>
    intro c d h
    unfold parse_sockets_expected at h
    rw [Option.some.injEq] at h
    subst h
    simp [parse_sockets]
  | cons v rest ih =>
    intro c d h
    unfold parse_sockets_expected at h
    unfold parse_sockets
    by_cases hv : v = ""
    · rw [if_pos hv] at h
      rw [if_pos hv]
      exact ih c d h
    · rw [if_neg hv] at h
      rw [if_neg hv]
      cases hpa : parse_socket_address env v ty with
      | error e => simp only [hpa] at h; exact Option.noConfusion h
      | ok sa =>
        simp only [hpa] at h
        cases hrest : parse_sockets_expected env rest ty with
        | none => rw [hrest] at h; exact Option.noConfusion h
        | some d2 =>
          rw [hrest, Option.map_some', Option.some.injEq] at h
          subst h
          simp only [hpa]
          rw [ih _ d2 hrest]
          simp [List.append_assoc]

/-- When some entry of a listen list fails to parse, `parse_sockets` reports
the parse error. -/
theorem parse_sockets_err (env : ConfigEnv) (ty : SockType) :
    ∀ (l : List String) (c : SocketConfigM),
    parse_sockets_expected env l ty = none →
    (parse_sockets env l ty c).2 = Except.error ConfErr.parseSocketFailed := by
  intro l
  induction l with
  | nil => intro c h; exact Option.noConfusion h
  | cons v rest ih =>
    intro c h
    unfold parse_sockets_expected at h
    unfold parse_sockets
    by_cases hv : v = ""
    · rw [if_pos hv] at h
      rw [if_pos hv]
      exact ih c h
    · rw [if_neg hv] at h
      rw [if_neg hv]
      cases hpa : parse_socket_address env v ty with
      | error e => simp only [hpa]
      | ok sa =>
        simp only [hpa] at h
        simp only [hpa]
        cases hrest : parse_sockets_expected env rest ty with
        | some d2 => rw [hrest] at h; simp at h
        | none => exact ih _ hrest

/-- When every entry of the netlink list parses, `parse_netlinks` appends
exactly the declared ports and succeeds. -/
theorem parse_netlinks_ok (env : ConfigEnv) :
    ∀ (l : List String) (c : SocketConfigM) (d : List SocketPortConfM),
    parse_netlinks_expected env l = some d →
    parse_netlinks env l c = ({ c with ports := c.ports ++ d }, Except.ok ()) := by
  intro l
  induction l with
  | nil =>
    intro c d h
    unfold parse_netlinks_expected at h
    rw [Option.some.injEq] at h
    subst h
    simp [parse_netlinks]
  | cons v rest ih =>
    intro c d h
    unfold parse_netlinks_expected at h
    unfold parse_netlinks
    by_cases hv : v = ""
    · rw [if_pos hv] at h
      rw [if_pos hv]
      exact ih c d h
    · rw [if_neg hv] at h
      rw [if_neg hv]
      cases hpa : parse_netlink_address env v with
      | error e => simp only [hpa] at h; exact Option.noConfusion h
      | ok sa =>
        simp only [hpa] at h
        cases hrest : parse_netlinks_expected env rest with
        | none => rw [hrest] at h; exact Option.noConfusion h
        | some d2 =>
          rw [hrest, Option.map_some', Option.some.injEq] at h
          subst h
          simp only [hpa]
          rw [ih _ d2 hrest]
          simp [List.append_assoc]

/-- When some netlink entry fails to parse, `parse_netlinks` reports the
error. -/
theorem parse_netlinks_err (env : ConfigEnv) :
    ∀ (l : List String) (c : SocketConfigM),
    parse_netlinks_expected env l = none →
    (parse_netlinks env l c).2 = Except.error ConfErr.parseSocketFailed := by
  intro l
  induction l with
  | nil => intro c h; exact Option.noConfusion h
  | cons v rest ih =>
    intro c h
    unfold parse_netlinks_expected at h
    unfold parse_netlinks
    by_cases hv : v = ""
    · rw [if_pos hv] at h
      rw [if_pos hv]
      exact ih c h
    · rw [if_neg hv] at h
      rw [if_neg hv]
      cases hpa : parse_netlink_address env v with
      | error e => simp only [hpa]
      | ok sa =>
        simp only [hpa] at h
        simp only [hpa]
        cases hrest : parse_netlinks_expected env rest with
        | some d2 => rw [hrest] at h; simp at h
        | none => exact ih _ hrest

/-- Splitting an `opt_append` that produced a value. -/
theorem opt_append_some {α : Type} (a b : Option (List α)) (x : List α)
    (h : opt_append a b = some x) :
    ∃ ya yb, a = some ya ∧ b = some yb ∧ x = ya ++ yb := by
  cases a with
  | none => exact Option.noConfusion h
  | some ya =>
    cases b with
    | none => exact Option.noConfusion h
    | some yb =>
      refine ⟨ya, yb, rfl, rfl, ?_⟩
      unfold opt_append at h
      rw [Option.some.injEq] at h
      exact h.symm

/-- A listen-list segment of `parse_port`, successful case. -/
theorem seg_sockets_ok (env : ConfigEnv) (o : Option (List String)) (ty : SockType)
    (c : SocketConfigM) (d1 : List SocketPortConfM)
    (h : (match o with
          | some l => parse_sockets_expected env l ty
          | none => some []) = some d1) :
    (match o with
      | some l => parse_sockets env l ty c
      | none => (c, Except.ok ())) =
      ({ c with ports := c.ports ++ d1 }, Except.ok ()) := by
  cases o with
  | none =>
    simp only [Option.some.injEq] at h
    subst h
    simp
  | some l => exact parse_sockets_ok env ty l c d1 h

/-- A listen-list segment of `parse_port`, failing case. -/
theorem seg_sockets_err (env : ConfigEnv) (o : Option (List String)) (ty : SockType)
    (c : SocketConfigM)
    (h : (match o with
          | some l => parse_sockets_expected env l ty
          | none => some []) = none) :
    (match o with
      | some l => parse_sockets env l ty c
      | none => (c, Except.ok ())).2 = Except.error ConfErr.parseSocketFailed := by
  cases o with
  | none => exact Option.noConfusion h
  | some l => exact parse_sockets_err env ty l c h

/-- The netlink segment of `parse_port`, successful case. -/
theorem seg_netlinks_ok (env : ConfigEnv) (o : Option (List String))
    (c : SocketConfigM) (d1 : List SocketPortConfM)
    (h : (match o with
          | some l => parse_netlinks_expected env l
          | none => some []) = some d1) :
    (match o with
      | some l => parse_netlinks env l c
      | none => (c, Except.ok ())) =
      ({ c with ports := c.ports ++ d1 }, Except.ok ()) := by
  cases o with
  | none =>
    simp only [Option.some.injEq] at h
    subst h
    simp
  | some l => exact parse_netlinks_ok env l c d1 h

/-- The netlink segment of `parse_port`, failing case. -/
theorem seg_netlinks_err (env : ConfigEnv) (o : Option (List String))
    (c : SocketConfigM)
    (h : (match o with
          | some l => parse_netlinks_expected env l
          | none => some []) = none) :
    (match o with
      | some l => parse_netlinks env l c
      | none => (c, Except.ok ())).2 = Except.error ConfErr.parseSocketFailed := by
  cases o with
  | none => exact Option.noConfusion h
  | some l => exact parse_netlinks_err env l c h

/-- When every declared address parses, `parse_port` appends exactly the
declared ports, in order, and succeeds. -/
theorem parse_port_ok (env : ConfigEnv) (c : SocketConfigM)
    (d : List SocketPortConfM) (h : declared_ports env c.data = some d) :
    parse_port env c = ({ c with ports := c.ports ++ d }, Except.ok ()) := by
  unfold declared_ports at h
  simp only at h
  obtain ⟨y3, d4, h3, h4, hd⟩ := opt_append_some _ _ _ h
  obtain ⟨y2, d3, h2, h3b, hy3⟩ := opt_append_some _ _ _ h3
  obtain ⟨d1, d2, h1, h2b, hy2⟩ := opt_append_some _ _ _ h2
  subst hd hy3 hy2
  unfold parse_port
  simp only
  rw [seg_sockets_ok env _ _ c d1 h1]
  simp only
  rw [seg_sockets_ok env _ _ _ d2 h2b]
  simp only
  rw [seg_netlinks_ok env _ _ d3 h3b]
  simp only
  rw [seg_sockets_ok env _ _ _ d4 h4]
  simp [List.append_assoc]

/-- When some declared address fails to parse, `parse_port` reports the
error. -/
theorem parse_port_err (env : ConfigEnv) (c : SocketConfigM)
    (h : declared_ports env c.data = none) :
    (parse_port env c).2 = Except.error ConfErr.parseSocketFailed := by
  unfold declared_ports at h
  simp only at h
  unfold parse_port
  simp only
  cases h1 : (match c.data.ListenStream with
      | some l => parse_sockets_expected env l SockType.Stream
      | none => some ([] : List SocketPortConfM)) with
  | none =>
    have hs1 := seg_sockets_err env c.data.ListenStream SockType.Stream c h1
    rcases hq : (match c.data.ListenStream with
        | some l => parse_sockets env l SockType.Stream c
        | none => (c, Except.ok ())) with ⟨c1, r1⟩
    rw [hq] at hs1
    simp only at hs1
    rw [hq]
    subst hs1
    rfl
  | some d1 =>
    rw [seg_sockets_ok env _ _ c d1 h1]
    simp only
    rw [h1] at h
    cases h2 : (match c.data.ListenDatagram with
        | some l => parse_sockets_expected env l SockType.Datagram
        | none => some ([] : List SocketPortConfM)) with
    | none =>
      have hs2 := seg_sockets_err env c.data.ListenDatagram SockType.Datagram
        { c with ports := c.ports ++ d1 } h2
      rcases hq : (match c.data.ListenDatagram with
          | some l => parse_sockets env l SockType.Datagram
              { c with ports := c.ports ++ d1 }
          | none => ({ c with ports := c.ports ++ d1 }, Except.ok ())) with ⟨c2, r2⟩
      rw [hq] at hs2
      simp only at hs2
      rw [hq]
      subst hs2
      rfl
    | some d2 =>
      rw [seg_sockets_ok env _ _ _ d2 h2]
      simp only
      rw [h2] at h
      cases h3 : (match c.data.ListenNetlink with
          | some l => parse_netlinks_expected env l
          | none => some ([] : List SocketPortConfM)) with
      | none =>
        have hs3 := seg_netlinks_err env c.data.ListenNetlink
          { c with ports := (c.ports ++ d1) ++ d2 } h3
        rcases hq : (match c.data.ListenNetlink with
            | some l => parse_netlinks env l { c with ports := (c.ports ++ d1) ++ d2 }
            | none => ({ c with ports := (c.ports ++ d1) ++ d2 }, Except.ok ())) with ⟨c3, r3⟩
        rw [hq] at hs3
        simp only at hs3
        rw [hq]
        subst hs3
        rfl
      | some d3 =>
        rw [seg_netlinks_ok env _ _ d3 h3]
        simp only
        rw [h3] at h
        cases h4 : (match c.data.ListenSequentialPacket with
            | some l => parse_sockets_expected env l SockType.SeqPacket
            | none => some ([] : List SocketPortConfM)) with
        | none =>
          exact seg_sockets_err env c.data.ListenSequentialPacket SockType.SeqPacket
            _ h4
        | some d4 =>
          rw [h4] at h
          simp [opt_append] at h

/-- `parse_service` touches only the service reference: data and ports are
left alone. -/
theorem parse_service_preserves (env : ConfigEnv) (c : SocketConfigM) :
    (parse_service env c).1.ports = c.ports ∧ (parse_service env c).1.data = c.data := by
  unfold parse_service
  rcases c.data.Service with _ | service
  · exact ⟨rfl, rfl⟩
  · simp only
    by_cases h1 : (!str_ends_with service ".service") = true
    · rw [if_pos h1]
      exact ⟨rfl, rfl⟩
    · rw [if_neg h1]
      by_cases h2 : (!env.loadUnitSuccess service) = true
      · rw [if_pos h2]
        exact ⟨rfl, rfl⟩
      · rw [if_neg h2]
        by_cases h3 : env.hasOwner = true
        · rw [if_pos h3]
          exact ⟨rfl, rfl⟩
        · rw [if_neg h3]
          exact ⟨rfl, rfl⟩

/-- A `parse_service` failure is the missing-suffix error or the
load-failure error. -/
theorem parse_service_err_classify (env : ConfigEnv) (c : SocketConfigM)
    (e : ConfErr) (h : (parse_service env c).2 = Except.error e) :
    e = ConfErr.serviceSuffix ∨ e = ConfErr.loadUnitFailed := by
  unfold parse_service at h
  cases hs : c.data.Service with
  | none => rw [hs] at h; exact Except.noConfusion h
  | some service =>
    rw [hs] at h
    simp only at h
    split_ifs at h <;> simp only [Except.error.injEq] at h
    · exact Or.inl h.symm
    · exact Or.inr h.symm

/-- C10: `SocketConfig::load` is atomic over the processed configuration —
whenever it fails after the raw data was read (missing `.service` suffix, an
unloadable service reference, or an unparsable listen address: the only
error sources), the whole configuration is reset to its default empty state
and the first error is returned; on success the processed state carries the
raw data and exactly the declared ports appended in order. -/
theorem socket_config_load_atomic (env : ConfigEnv) (raw : SectionSocketM)
    (c : SocketConfigM) :
    (∀ e, (socket_config_load env raw c).2 = Except.error e →
      socket_config_load env raw c = (SocketConfigM.reset, Except.error e))
    ∧ (∀ e, (parse_service env { c with data := raw }).2 = Except.error e →
      socket_config_load env raw c = (SocketConfigM.reset, Except.error e))
    ∧ (∀ e, (parse_service env { c with data := raw }).2 = Except.error e →
      e = ConfErr.serviceSuffix ∨ e = ConfErr.loadUnitFailed)
    ∧ ((socket_config_load env raw c).2 = Except.ok () →
      (declared_ports env raw).isSome = true
      ∧ (socket_config_load env raw c).1.ports = c.ports ++ (declared_ports env raw).getD []
      ∧ (socket_config_load env raw c).1.data = raw) := by
  have hps := parse_service_preserves env { c with data := raw }
  refine ⟨?_, ?_, ?_, ?_⟩
  · intro e he
    unfold socket_config_load at he ⊢
    simp only at he ⊢
    rcases hq1 : (parse_service env { c with data := raw }).2 with e1 | u1
    · rw [hq1] at he
      simp only at he ⊢
      injection he with h1
      rw [h1]
    · rcases hq2 : (parse_port env (parse_service env { c with data := raw }).1).2 with e2 | u2
      · rw [hq1, hq2] at he
        simp only at he ⊢
        injection he with h1
        rw [h1]
      · rw [hq1, hq2] at he
        simp only at he
        exact Except.noConfusion he
  · intro e he
    unfold socket_config_load
    simp only
    rw [he]
    rcases (parse_port env (parse_service env { c with data := raw }).1).2 with e2 | u2 <;> rfl
  · intro e he
    exact parse_service_err_classify env { c with data := raw } e he
  · intro hok
    unfold socket_config_load at hok ⊢
    simp only at hok ⊢
    rcases hq1 : (parse_service env { c with data := raw }).2 with e1 | u1
    · rw [hq1] at hok
      simp only at hok
      exact Except.noConfusion hok
    · rcases hq2 : (parse_port env (parse_service env { c with data := raw }).1).2 with e2 | u2
      · rw [hq1, hq2] at hok
        simp only at hok
        exact Except.noConfusion hok
      · cases hdp : declared_ports env raw with
        | none =>
          have hperr := parse_port_err env (parse_service env { c with data := raw }).1
            (by rw [hps.2]; exact hdp)
          rw [hq2] at hperr
          exact Except.noConfusion hperr
        | some d =>
          have hpo := parse_port_ok env (parse_service env { c with data := raw }).1 d
            (by rw [hps.2]; exact hdp)
          simp only
          refine ⟨rfl, ?_, ?_⟩
          · rw [hpo]
            simp only
            rw [hps.1]
            rfl
          · rw [hpo]
            simp only
            rw [hps.2]

/-- Witness for C10 at a service reference lacking the `.service` suffix:
the whole configuration is reset and the first error returned. -/
theorem socket_config_load_atomic_w :
    socket_config_load conf_env raw_badservice cfg_empty =
      (SocketConfigM.reset, Except.error ConfErr.serviceSuffix) :=
  (socket_config_load_atomic conf_env raw_badservice cfg_empty).2.1
    ConfErr.serviceSuffix rfl

/-- The listen tail never emits a close and preserves a close-free trace. -/
theorem socket_listen_tail_no_close (env : ListenEnv) (a : SocketAddressM)
    (backlog : Nat) (fd : Int) (tr : List Sys)
    (h : (tr.all fun s => !sys_is_close s) = true) :
    ((socket_listen_tail env a backlog fd tr).2.all fun s => !sys_is_close s) = true := by
  unfold socket_listen_tail
  by_cases hc : can_accept a.sa_type = true
  · rw [if_pos hc]
    rcases env.listenResult with e | u <;> simp_all [sys_is_close]
  · rw [if_neg hc]
    exact h

/-- The listen tail keeps the head of a non-empty trace. -/
theorem socket_listen_tail_head (env : ListenEnv) (a : SocketAddressM)
    (backlog : Nat) (fd : Int) (x : Sys) (tr : List Sys) :
    (socket_listen_tail env a backlog fd (x :: tr)).2.head? = some x := by
  unfold socket_listen_tail
  by_cases hc : can_accept a.sa_type = true
  · rw [if_pos hc]
    rcases env.listenResult with e | u <;> rfl
  · rw [if_neg hc]
    rfl

/-- C5 (amended): `socket_listen` opens a socket of the address's family,
type and protocol with the given flags (always the first syscall); sets
`SO_REUSEADDR`; for a pathname UNIX address creates the parent directory
(failure propagated as `EINVAL`), binds, and only on `EADDRINUSE` unlinks the
path and retries the bind exactly once, while any other failure of that
first bind is silently swallowed; for other addresses binds once,
propagating failure; calls `listen(backlog)` exactly when the socket type is
stream (`can_accept`); and on any failure propagates the errno to the caller
without ever closing the descriptor. -/
theorem socket_listen_spec (env : ListenEnv) (a : SocketAddressM)
    (flags backlog : Nat) :
    (((socket_listen env a flags backlog).2.all fun s => !sys_is_close s) = true)
    ∧ ((socket_listen env a flags backlog).2.head? =
        some (Sys.socketCall a.sock_addr.family a.sa_type flags a.protocol))
    ∧ (∀ e, env.socketResult = Except.error e →
        socket_listen env a flags backlog =
          (Except.error e, [Sys.socketCall a.sock_addr.family a.sa_type flags a.protocol]))
    ∧ (∀ fd e, env.socketResult = Except.ok fd →
        env.setsockoptResult = Except.error e →
        socket_listen env a flags backlog =
          (Except.error e, [Sys.socketCall a.sock_addr.family a.sa_type flags a.protocol,
            Sys.setsockoptReuseAddr fd]))
    ∧ (∀ fd p, env.socketResult = Except.ok fd →
        env.setsockoptResult = Except.ok () → a.sock_addr.path = some p →
        env.createDirOk = false →
        socket_listen env a flags backlog =
          (Except.error Errno.EINVAL,
           [Sys.socketCall a.sock_addr.family a.sa_type flags a.protocol,
            Sys.setsockoptReuseAddr fd, Sys.createDirAll (parent_dir p)]))
    ∧ (∀ fd p e, env.socketResult = Except.ok fd →
        env.setsockoptResult = Except.ok () → a.sock_addr.path = some p →
        env.createDirOk = true → env.bind1 = Except.error Errno.EADDRINUSE →
        env.bind2 = Except.error e →
        socket_listen env a flags backlog =
          (Except.error e,
           [Sys.socketCall a.sock_addr.family a.sa_type flags a.protocol,
            Sys.setsockoptReuseAddr fd, Sys.createDirAll (parent_dir p),
            Sys.bindCall fd, Sys.unlinkCall p, Sys.bindCall fd]))
    ∧ (∀ fd p, env.socketResult = Except.ok fd →
        env.setsockoptResult = Except.ok () → a.sock_addr.path = some p →
        env.createDirOk = true → env.bind1 = Except.error Errno.EADDRINUSE →
        env.bind2 = Except.ok () →
        socket_listen env a flags backlog =
          socket_listen_tail env a backlog fd
            [Sys.socketCall a.sock_addr.family a.sa_type flags a.protocol,
             Sys.setsockoptReuseAddr fd, Sys.createDirAll (parent_dir p),
             Sys.bindCall fd, Sys.unlinkCall p, Sys.bindCall fd])
    ∧ (∀ fd p, env.socketResult = Except.ok fd →
        env.setsockoptResult = Except.ok () → a.sock_addr.path = some p →
        env.createDirOk = true → env.bind1 ≠ Except.error Errno.EADDRINUSE →
        socket_listen env a flags backlog =
          socket_listen_tail env a backlog fd
            [Sys.socketCall a.sock_addr.family a.sa_type flags a.protocol,
             Sys.setsockoptReuseAddr fd, Sys.createDirAll (parent_dir p),
             Sys.bindCall fd])
    ∧ (∀ fd e, env.socketResult = Except.ok fd →
        env.setsockoptResult = Except.ok () → a.sock_addr.path = none →
        env.bind1 = Except.error e →
        socket_listen env a flags backlog =
          (Except.error e,
           [Sys.socketCall a.sock_addr.family a.sa_type flags a.protocol,
            Sys.setsockoptReuseAddr fd, Sys.bindCall fd]))
    ∧ (∀ fd, env.socketResult = Except.ok fd →
        env.setsockoptResult = Except.ok () → a.sock_addr.path = none →
        env.bind1 = Except.ok () →
        socket_listen env a flags backlog =
          socket_listen_tail env a backlog fd
            [Sys.socketCall a.sock_addr.family a.sa_type flags a.protocol,
             Sys.setsockoptReuseAddr fd, Sys.bindCall fd])
    ∧ (∀ fd tr e, can_accept a.sa_type = true → env.listenResult = Except.error e →
        socket_listen_tail env a backlog fd tr =
          (Except.error e, tr ++ [Sys.listenCall fd backlog]))
    ∧ (∀ fd tr, can_accept a.sa_type = true → env.listenResult = Except.ok () →
        socket_listen_tail env a backlog fd tr =
          (Except.ok fd, tr ++ [Sys.listenCall fd backlog]))
    ∧ (∀ fd tr, can_accept a.sa_type = false →
        socket_listen_tail env a backlog fd tr = (Except.ok fd, tr)) := by
  refine ⟨?_, ?_, ?_, ?_, ?_, ?_, ?_, ?_, ?_, ?_, ?_, ?_, ?_⟩
  · unfold socket_listen
    rcases env.socketResult with e | fd
    · simp [sys_is_close]
    · rcases env.setsockoptResult with e | u
      · simp [sys_is_close]
      · rcases hpath : a.sock_addr.path with _ | p
        · rcases env.bind1 with e | u1
          · simp [sys_is_close]
          · exact socket_listen_tail_no_close env a backlog fd _ (by simp [sys_is_close])
        · by_cases hdir : env.createDirOk = true
          · rw [hdir]
            simp only [Bool.not_true]
            rcases hb1 : env.bind1 with e | u1
            · cases e with
              | EADDRINUSE =>
                rcases env.bind2 with e2 | u2
                · simp [sys_is_close]
                · exact socket_listen_tail_no_close env a backlog fd _ (by simp [sys_is_close])
              | EINVAL => exact socket_listen_tail_no_close env a backlog fd _ (by simp [sys_is_close])
              | EAGAIN => exact socket_listen_tail_no_close env a backlog fd _ (by simp [sys_is_close])
              | other n => exact socket_listen_tail_no_close env a backlog fd _ (by simp [sys_is_close])
            · exact socket_listen_tail_no_close env a backlog fd _ (by simp [sys_is_close])
          · rw [Bool.not_eq_true] at hdir
            rw [hdir]
            simp [sys_is_close]
  · unfold socket_listen
    rcases env.socketResult with e | fd
    · rfl
    · rcases env.setsockoptResult with e | u
      · rfl
      · rcases hpath : a.sock_addr.path with _ | p
        · rcases env.bind1 with e | u1
          · rfl
          · exact socket_listen_tail_head env a backlog fd _ _
        · by_cases hdir : env.createDirOk = true
          · rw [hdir]
            simp only [Bool.not_true]
            rcases hb1 : env.bind1 with e | u1
            · cases e with
              | EADDRINUSE =>
                rcases env.bind2 with e2 | u2
                · rfl
                · exact socket_listen_tail_head env a backlog fd _ _
              | EINVAL => exact socket_listen_tail_head env a backlog fd _ _
              | EAGAIN => exact socket_listen_tail_head env a backlog fd _ _
              | other n => exact socket_listen_tail_head env a backlog fd _ _
            · exact socket_listen_tail_head env a backlog fd _ _
          · rw [Bool.not_eq_true] at hdir
            rw [hdir]
            rfl
  · intro e h
    unfold socket_listen
    rw [h]
  · intro fd e h1 h2
    unfold socket_listen
    rw [h1]
    simp only
    rw [h2]
    rfl
  · intro fd p h1 h2 hp hdir
    unfold socket_listen
    rw [h1]
    simp only
    rw [h2]
    simp only
    rw [hp]
    simp only
    rw [hdir]
    rfl
  · intro fd p e h1 h2 hp hdir hb1 hb2
    unfold socket_listen
    rw [h1]
    simp only
    rw [h2]
    simp only
    rw [hp]
    simp only
    rw [hdir]
    simp only [Bool.not_true]
    rw [hb1]
    simp only
    rw [hb2]
    rfl
  · intro fd p h1 h2 hp hdir hb1 hb2
    unfold socket_listen
    rw [h1]
    simp only
    rw [h2]
    simp only
    rw [hp]
    simp only
    rw [hdir]
    simp only [Bool.not_true]
    rw [hb1]
    simp only
    rw [hb2]
    rfl
  · intro fd p h1 h2 hp hdir hb1
    unfold socket_listen
    rw [h1]
    simp only
    rw [h2]
    simp only
    rw [hp]
    simp only
    rw [hdir]
    simp only [Bool.not_true]
    rcases hb : env.bind1 with e | u1
    · match e, hb with
      | Errno.EADDRINUSE, hb => exact absurd hb hb1
      | Errno.EINVAL, _ => rfl
      | Errno.EAGAIN, _ => rfl
      | Errno.other n, _ => rfl
    · rfl
  · intro fd e h1 h2 hp hb1
    unfold socket_listen
    rw [h1]
    simp only
    rw [h2]
    simp only
    rw [hp]
    simp only
    rw [hb1]
    rfl
  · intro fd h1 h2 hp hb1
    unfold socket_listen
    rw [h1]
    simp only
    rw [h2]
    simp only
    rw [hp]
    simp only
    rw [hb1]
    rfl
  · intro fd tr e hc hl
    unfold socket_listen_tail
    rw [if_pos hc, hl]
  · intro fd tr hc hl
    unfold socket_listen_tail
    rw [if_pos hc, hl]
  · intro fd tr hc
    unfold socket_listen_tail
    rw [if_neg (by rw [hc]; exact Bool.false_ne_true)]

/-- Witness for C5 (amended): the bind1-swallow branch at the UNIX fixture. -/
theorem socket_listen_spec_w :
    socket_listen listen_env_bind_eperm addr_unix 0 128 =
      socket_listen_tail listen_env_bind_eperm addr_unix 128 4
        [Sys.socketCall AddressFamily.Unix SockType.Stream 0 none,
         Sys.setsockoptReuseAddr 4, Sys.createDirAll (parent_dir "/run/app.sock"),
         Sys.bindCall 4] :=
  (socket_listen_spec listen_env_bind_eperm addr_unix 0 128).2.2.2.2.2.2.2.1
    4 "/run/app.sock" rfl rfl rfl rfl
    (fun h => Errno.noConfusion (Except.error.inj h))

/-- C5 (counterexample): three concrete evaluations against the claim as
stated.  A sequential-packet socket never gets a `listen` call (`can_accept`
admits only stream); a `setsockopt` failure propagates the errno but the
descriptor is not closed (no `closeCall` in the trace); and a first-bind
failure other than `EADDRINUSE` on a UNIX path is silently swallowed — the
call still returns the descriptor instead of propagating the errno. -/
theorem socket_listen_counterexample :
    socket_listen listen_env_ok addr_seq 0 128 =
      (Except.ok 4, [Sys.socketCall AddressFamily.Inet6 SockType.SeqPacket 0 none,
        Sys.setsockoptReuseAddr 4, Sys.bindCall 4])
    ∧ socket_listen listen_env_sockopt_fail addr_seq 0 128 =
      (Except.error (Errno.other 13),
       [Sys.socketCall AddressFamily.Inet6 SockType.SeqPacket 0 none,
        Sys.setsockoptReuseAddr 4])
    ∧ socket_listen listen_env_bind_eperm addr_unix 0 128 =
      (Except.ok 4, [Sys.socketCall AddressFamily.Unix SockType.Stream 0 none,
        Sys.setsockoptReuseAddr 4, Sys.createDirAll "/run", Sys.bindCall 4,
        Sys.listenCall 4 128]) := by
  refine ⟨rfl, rfl, rfl⟩

/-- In the three activating states the socket sub-kind start is a silent
no-op: `start_check` answers `Ok(true)` and nothing changes. -/
theorem socket_start_noop_of_activating (env : SocketMngEnv) (m : SocketMngM)
    (h : m.state.to_unit_active_state = UnitActiveState.UnitActivating) :
    socket_start env m = (m, SubStartOutcome.noop) := by
  cases hs : m.state <;>
    simp_all [SocketState.to_unit_active_state, socket_start, start_check,
      start_check_again_states]

/-- C3: the start preflight of the unit frame, composed with the socket
sub-kind — `already` when active or reloading; `again` when maintenance;
`invalid` when not loaded; a silent no-op success when already activating
(the socket `start_check` answers "already starting"); `invalid` when a
condition or assert test fails (evaluated only outside activating); and in
the remaining states the sub-kind start action is invoked and decides the
result. -/
theorem unit_start_state_gate (env : SocketMngEnv) (load : UnitLoadState)
    (conditionsOk assertsOk : Bool) (m : SocketMngM) :
    (m.state.to_unit_active_state = UnitActiveState.UnitActive ∨
       m.state.to_unit_active_state = UnitActiveState.UnitReloading →
      unit_start env load conditionsOk assertsOk m =
        ⟨m, Except.error ErrU.UnitActionEAlready, none⟩)
    ∧ (m.state.to_unit_active_state = UnitActiveState.UnitMaintenance →
      unit_start env load conditionsOk assertsOk m =
        ⟨m, Except.error ErrU.UnitActionEAgain, none⟩)
    ∧ (m.state.to_unit_active_state ≠ UnitActiveState.UnitActive →
       m.state.to_unit_active_state ≠ UnitActiveState.UnitReloading →
       m.state.to_unit_active_state ≠ UnitActiveState.UnitMaintenance →
       load ≠ UnitLoadState.UnitLoaded →
      unit_start env load conditionsOk assertsOk m =
        ⟨m, Except.error ErrU.UnitActionEInval, none⟩)
    ∧ (m.state.to_unit_active_state = UnitActiveState.UnitActivating →
       load = UnitLoadState.UnitLoaded →
      unit_start env load conditionsOk assertsOk m =
        ⟨m, Except.ok (), some SubStartOutcome.noop⟩)
    ∧ (m.state.to_unit_active_state ≠ UnitActiveState.UnitActive →
       m.state.to_unit_active_state ≠ UnitActiveState.UnitReloading →
       m.state.to_unit_active_state ≠ UnitActiveState.UnitMaintenance →
       m.state.to_unit_active_state ≠ UnitActiveState.UnitActivating →
       load = UnitLoadState.UnitLoaded →
       (conditionsOk = false ∨ assertsOk = false) →
      unit_start env load conditionsOk assertsOk m =
        ⟨m, Except.error ErrU.UnitActionEInval, none⟩)
    ∧ (m.state.to_unit_active_state ≠ UnitActiveState.UnitActive →
       m.state.to_unit_active_state ≠ UnitActiveState.UnitReloading →
       m.state.to_unit_active_state ≠ UnitActiveState.UnitMaintenance →
       m.state.to_unit_active_state ≠ UnitActiveState.UnitActivating →
       load = UnitLoadState.UnitLoaded →
       conditionsOk = true → assertsOk = true →
      (unit_start env load conditionsOk assertsOk m).mng = (socket_start env m).1
      ∧ (unit_start env load conditionsOk assertsOk m).subOutcome =
          some (socket_start env m).2) := by
  refine ⟨?_, ?_, ?_, ?_, ?_, ?_⟩
  · intro h
    simp only [unit_start, if_pos h]
  · intro h
    simp [unit_start, h]
  · intro h1 h2 h3 h4
    simp [unit_start, h1, h2, h3, h4]
  · intro h hl
    subst hl
    simp [unit_start, h, socket_start_noop_of_activating env m h]
  · intro h1 h2 h3 h4 hl hca
    subst hl
    by_cases hc : conditionsOk = false
    · simp [unit_start, h1, h2, h3, h4, hc]
    · rw [Bool.not_eq_false] at hc
      rcases hca with hca | hca
      · rw [hca] at hc
        exact Bool.noConfusion hc
      · simp [unit_start, h1, h2, h3, h4, hc, hca]
  · intro h1 h2 h3 h4 hl hc ha
    subst hl
    rcases hso : socket_start env m with ⟨m2, o⟩
    cases o <;> simp [unit_start, h1, h2, h3, h4, hc, ha, hso]

/-- Witness for C3 at a dead socket with all gates open: the sub start is
invoked and its outcome reported. -/
theorem unit_start_state_gate_w :
    (unit_start env0 UnitLoadState.UnitLoaded true true m_dead).mng =
      (socket_start env0 m_dead).1
    ∧ (unit_start env0 UnitLoadState.UnitLoaded true true m_dead).subOutcome =
      some (socket_start env0 m_dead).2 :=
  (unit_start_state_gate env0 UnitLoadState.UnitLoaded true true m_dead).2.2.2.2.2
    (by decide) (by decide) (by decide) (by decide) rfl rfl rfl

/-- C4: the condition and assert tests are consulted only before the first
transition into activating — in the activating state the result of
`Unit::start` does not depend on them at all — and their failure reactions
(marking the unit inactive with result skipped on a failed condition test,
checked first, and failed on a failed assert test) follow the
specification's marking. -/
theorem conditions_checked_before_activating_only :
    (∀ (env : SocketMngEnv) (load : UnitLoadState) (c1 a1 c2 a2 : Bool)
       (m : SocketMngM),
      m.state.to_unit_active_state = UnitActiveState.UnitActivating →
      unit_start env load c1 a1 m = unit_start env load c2 a2 m)
    ∧ (∀ a, condition_refusal_marking false a =
        some (UnitActiveState.UnitInActive, some JobResultM.JobSkipped))
    ∧ condition_refusal_marking true false =
        some (UnitActiveState.UnitFailed, none)
    ∧ (∀ (env : SocketMngEnv) (c a : Bool) (m : SocketMngM),
      m.state.to_unit_active_state ≠ UnitActiveState.UnitActive →
      m.state.to_unit_active_state ≠ UnitActiveState.UnitReloading →
      m.state.to_unit_active_state ≠ UnitActiveState.UnitMaintenance →
      m.state.to_unit_active_state ≠ UnitActiveState.UnitActivating →
      (c = false ∨ (c = true ∧ a = false)) →
      unit_start env UnitLoadState.UnitLoaded c a m =
        ⟨m, Except.error ErrU.UnitActionEInval, none⟩) := by
  refine ⟨?_, ?_, ?_, ?_⟩
  · intro env load c1 a1 c2 a2 m h
    simp [unit_start, h]
  · intro a
    rfl
  · rfl
  · intro env c a m h1 h2 h3 h4 hca
    rcases hca with hc | ⟨hc, ha⟩
    · simp [unit_start, h1, h2, h3, h4, hc]
    · simp [unit_start, h1, h2, h3, h4, hc, ha]

/-- Witness for C4 at the `StartPre` (activating) fixture: flipping both
test outcomes does not change the result of `Unit::start`. -/
theorem conditions_checked_before_activating_only_w :
    unit_start env0 UnitLoadState.UnitLoaded true true m_startpre =
      unit_start env0 UnitLoadState.UnitLoaded false false m_startpre :=
  conditions_checked_before_activating_only.1 env0 UnitLoadState.UnitLoaded
    true true false false m_startpre rfl

/-- `set_state` never touches the run result. -/
theorem result_set_state (s : SocketState) (m : SocketMngM) :
    (set_state s m).result = m.result := by
  unfold set_state
  split_ifs <;> rfl

/-- `set_state` stores the requested state. -/
theorem state_set_state (s : SocketState) (m : SocketMngM) :
    (set_state s m).state = s := by
  unfold set_state
  split_ifs <;> rfl

/-- `control_command_fill` never touches the run result. -/
theorem result_fill (env : SocketMngEnv) (t : SocketCommand) (m : SocketMngM) :
    (control_command_fill env t m).result = m.result := by
  unfold control_command_fill
  cases env.execCmds t <;> rfl

/-- `control_command_pop` never touches the run result. -/
theorem result_pop (m : SocketMngM) :
    (control_command_pop m).2.result = m.result := by
  unfold control_command_pop
  cases m.controlCommand.getLast? <;> rfl

/-- Once the result is a failure, `enter_dead` keeps it. -/
theorem result_stable_dead (res : SocketResult) (m : SocketMngM)
    (h : m.result ≠ SocketResult.Success) :
    (enter_dead res m).result = m.result := by
  unfold enter_dead
  rw [if_neg h]
  exact result_set_state _ _

/-- Once the result is a failure, the final-sigkill pass keeps it. -/
theorem result_stable_fsk (env : SocketMngEnv) (res : SocketResult)
    (m : SocketMngM) (h : m.result ≠ SocketResult.Success) :
    (enter_signal_final_sigkill env res m).result = m.result := by
  unfold enter_signal_final_sigkill
  rw [if_neg h]
  split_ifs <;> exact result_stable_dead _ _ h

/-- Once the result is a failure, the final-sigterm pass keeps it. -/
theorem result_stable_fst (env : SocketMngEnv) (res : SocketResult)
    (m : SocketMngM) (h : m.result ≠ SocketResult.Success) :
    (enter_signal_final_sigterm env res m).result = m.result := by
  unfold enter_signal_final_sigterm
  rw [if_neg h]
  split_ifs
  · exact result_stable_dead _ _ h
  · exact result_stable_fsk env _ m h

/-- Once the result is a failure, `enter_stop_post` keeps it. -/
theorem result_stable_stop_post (env : SocketMngEnv) (res : SocketResult)
    (m : SocketMngM) (h : m.result ≠ SocketResult.Success) :
    (enter_stop_post env res m).result = m.result := by
  unfold enter_stop_post
  rw [if_neg h]
  simp only []
  rcases hq : control_command_pop (control_command_fill env SocketCommand.StopPost m)
    with ⟨oc, m2⟩
  have hres : m2.result = m.result := by
    have hp := result_pop (control_command_fill env SocketCommand.StopPost m)
    rw [hq] at hp
    rw [hp, result_fill]
  have h2 : m2.result ≠ SocketResult.Success := by rw [hres]; exact h
  cases oc with
  | some cmd =>
    by_cases hs : env.spawnOk cmd = true
    · simp only [hs, if_true]
      rw [result_set_state, hres]
    · simp only [hs, if_false, Bool.false_eq_true]
      rw [result_stable_fst env _ m2 h2, hres]
  | none =>
    simp only
    rw [result_stable_fst env _ m2 h2, hres]

/-- Entering the stop-pre sequence with `FailureResources` on a so-far
successful run records `FailureResources` as the run result, whatever path
the sequence then takes. -/
theorem enter_stop_pre_records_failure (env : SocketMngEnv) (m : SocketMngM)
    (h : m.result = SocketResult.Success) :
    (enter_stop_pre env SocketResult.FailureResources m).result =
      SocketResult.FailureResources := by
  unfold enter_stop_pre
  rw [if_pos h]
  simp only []
  rcases hq : control_command_pop (control_command_fill env SocketCommand.StopPre
      { m with result := SocketResult.FailureResources }) with ⟨oc, m2⟩
  have hres : m2.result = SocketResult.FailureResources := by
    have hp := result_pop (control_command_fill env SocketCommand.StopPre
      { m with result := SocketResult.FailureResources })
    rw [hq] at hp
    rw [hp, result_fill]
  have h2 : m2.result ≠ SocketResult.Success := by
    rw [hres]
    exact fun hc => SocketResult.noConfusion hc
  cases oc with
  | some cmd =>
    by_cases hs : env.spawnOk cmd = true
    · simp only [hs, if_true]
      rw [result_set_state, hres]
    · simp only [hs, if_false, Bool.false_eq_true]
      rw [result_stable_stop_post env _ m2 h2, hres]
  | none =>
    simp only
    rw [result_stable_stop_post env _ m2 h2, hres]

/-- C2 (amended): `enter_running` first checks whether *the socket unit
itself* has a pending stop job: if so, an `fd ≥ 0` only bumps the refused
counter and an `fd < 0` flushes all ports, and nothing else changes; absent
a stop job, `enter_running(-1)` starts the triggered service unless the
triggered relation is already active or pending, and when no trigger target
is configured or the start fails it enters the stop-pre sequence with result
`failure-resources`; on success (or when the relation was already active or
pending) the state becomes `Running`. -/
theorem enter_running_gate (env : SocketMngEnv) (fd : Int) (m : SocketMngM)
    (hOwner : env.hasOwner = true) :
    (env.umHasStopJob env.ownerId = true →
      (0 ≤ fd →
        enter_running env fd m = ⟨{ m with refused := m.refused + 1 }, none, false⟩)
      ∧ (fd < 0 → enter_running env fd m = ⟨flush_ports m, none, false⟩))
    ∧ (env.umHasStopJob env.ownerId = false → fd < 0 →
      (env.relationActiveOrPending env.ownerId = true →
        enter_running env fd m = ⟨set_state SocketState.Running m, none, false⟩
        ∧ (set_state SocketState.Running m).state = SocketState.Running)
      ∧ (env.relationActiveOrPending env.ownerId = false →
        (env.unitRefTarget = none →
          enter_running env fd m =
            ⟨enter_stop_pre env SocketResult.FailureResources m, none, false⟩)
        ∧ (∀ s, env.unitRefTarget = some s →
          (env.umStartUnitOk s = false →
            enter_running env fd m =
              ⟨enter_stop_pre env SocketResult.FailureResources m, some s, false⟩)
          ∧ (env.umStartUnitOk s = true →
            enter_running env fd m =
              ⟨set_state SocketState.Running m, some s, false⟩
            ∧ (set_state SocketState.Running m).state = SocketState.Running)))
      ∧ (m.result = SocketResult.Success →
        (enter_stop_pre env SocketResult.FailureResources m).result =
          SocketResult.FailureResources)) := by
  refine ⟨?_, ?_⟩
  · intro hstop
    constructor
    · intro hge
      have hlt : ¬ fd < 0 := not_lt.mpr hge
      simp [enter_running, hOwner, hstop, hge]
    · intro hlt
      have hge : ¬ 0 ≤ fd := not_le.mpr hlt
      simp [enter_running, hOwner, hstop, hge]
  · intro hstop hlt
    refine ⟨?_, ?_, ?_⟩
    · intro hrel
      exact ⟨by simp [enter_running, hOwner, hstop, hlt, hrel], state_set_state _ _⟩
    · intro hrel
      constructor
      · intro htgt
        simp [enter_running, hOwner, hstop, hlt, hrel, htgt]
      · intro s htgt
        constructor
        · intro hsu
          simp [enter_running, hOwner, hstop, hlt, hrel, htgt, hsu]
        · intro hsu
          exact ⟨by simp [enter_running, hOwner, hstop, hlt, hrel, htgt, hsu],
            state_set_state _ _⟩
    · exact enter_stop_pre_records_failure env m

/-- Witness for C2 (amended): no stop job, no active relation, configured
target that starts successfully — the state becomes `Running`. -/
theorem enter_running_gate_w :
    enter_running env0 (-1) m_listening =
      ⟨set_state SocketState.Running m_listening, some "app.service", false⟩
    ∧ (set_state SocketState.Running m_listening).state = SocketState.Running :=
  ((((enter_running_gate env0 (-1) m_listening rfl).2 rfl (by decide)).2.1
    rfl).2 "app.service" rfl).2 rfl

/-- C2 (counterexample): with a stop job pending on the socket unit itself
and none on the triggered service, `enter_running` still takes the
back-pressure path — the source queries `um.has_stop_job` with the socket's
own id (`u.id()`), not the triggered unit's, so the claim's "the triggered
unit has a pending stop job" misnames the unit being checked. -/
theorem enter_running_checks_socket_not_service :
    env_stopjob.umHasStopJob "app.service" = false
    ∧ env_stopjob.unitRefTarget = some "app.service"
    ∧ enter_running env_stopjob 5 m_listening =
        ⟨{ m_listening with refused := 1 }, none, false⟩
    ∧ enter_running env_stopjob (-1) m_listening =
        ⟨flush_ports m_listening, none, false⟩ := by
  refine ⟨rfl, rfl, rfl, rfl⟩

/-- After `set_state` to any state other than `Listening` the event-source
invariant holds outright: the sources were just disabled. -/
theorem sockInv_set_state_ne (s : SocketState) (m : SocketMngM)
    (h : s ≠ SocketState.Listening) : SockInv (set_state s m) := by
  constructor
  · intro hst
    rw [state_set_state] at hst
    exact absurd hst h
  · intro _ p hp
    unfold set_state at hp
    simp only [] at hp
    rw [if_neg h] at hp
    by_cases hk : s ∈ keep_fd_states
    · rw [if_pos hk] at hp
      simp only [unwatch_fds, List.mem_map] at hp
      obtain ⟨q, _, rfl⟩ := hp
      rfl
    · rw [if_neg hk] at hp
      simp only [close_fds, unwatch_fds, List.mem_map] at hp
      obtain ⟨q, _, rfl⟩ := hp
      rfl

/-- After `watch_fds` followed by `set_state(Listening)` — the exact tail of
`enter_listening` — the invariant holds outright: every port with an open
descriptor was just registered and enabled. -/
theorem sockInv_listening_watch (m : SocketMngM) :
    SockInv (set_state SocketState.Listening (watch_fds m)) := by
  constructor
  · intro _ p hp h0
    have hp2 : p ∈ (watch_fds m).ports := hp
    simp only [watch_fds, List.mem_map] at hp2
    obtain ⟨q, _, rfl⟩ := hp2
    by_cases hq : q.fd < 0
    · rw [if_pos hq] at h0 ⊢
      exact absurd h0 (not_le.mpr hq)
    · rw [if_neg hq] at h0 ⊢
      exact ⟨rfl, rfl⟩
  · intro hst
    rw [state_set_state] at hst
    exact absurd rfl hst

/-- `enter_dead` establishes the invariant outright. -/
theorem sockInv_enter_dead (res : SocketResult) (m : SocketMngM) :
    SockInv (enter_dead res m) := by
  unfold enter_dead
  simp only []
  split_ifs <;> apply sockInv_set_state_ne <;> intro hc <;> exact SocketState.noConfusion hc

/-- The final-sigkill pass establishes the invariant outright. -/
theorem sockInv_esfk (env : SocketMngEnv) (res : SocketResult) (m : SocketMngM) :
    SockInv (enter_signal_final_sigkill env res m) := by
  unfold enter_signal_final_sigkill
  split_ifs <;> apply sockInv_enter_dead

/-- The final-sigterm pass establishes the invariant outright. -/
theorem sockInv_esft (env : SocketMngEnv) (res : SocketResult) (m : SocketMngM) :
    SockInv (enter_signal_final_sigterm env res m) := by
  unfold enter_signal_final_sigterm
  split_ifs <;> first
    | apply sockInv_enter_dead
    | apply sockInv_esfk

/-- `enter_stop_post` establishes the invariant outright. -/
theorem sockInv_enter_stop_post (env : SocketMngEnv) (res : SocketResult)
    (m : SocketMngM) : SockInv (enter_stop_post env res m) := by
  unfold enter_stop_post
  simp only []
  generalize (if m.result = SocketResult.Success then { m with result := res } else m) = m1
  rcases control_command_pop (control_command_fill env SocketCommand.StopPost m1)
    with ⟨oc, m2⟩
  cases oc with
  | some cmd =>
    by_cases hs : env.spawnOk cmd = true
    · simp only [hs, if_true]
      exact sockInv_set_state_ne _ _ (fun hc => SocketState.noConfusion hc)
    · simp only [hs, Bool.false_eq_true, if_false]
      apply sockInv_esft
  | none =>
    simp only []
    apply sockInv_esft

/-- The stop-pre-sigkill pass establishes the invariant outright. -/
theorem sockInv_esppk (env : SocketMngEnv) (res : SocketResult) (m : SocketMngM) :
    SockInv (enter_signal_stop_pre_sigkill env res m) := by
  unfold enter_signal_stop_pre_sigkill
  split_ifs <;> apply sockInv_enter_stop_post

/-- The stop-pre-sigterm pass establishes the invariant outright. -/
theorem sockInv_esppt (env : SocketMngEnv) (res : SocketResult) (m : SocketMngM) :
    SockInv (enter_signal_stop_pre_sigterm env res m) := by
  unfold enter_signal_stop_pre_sigterm
  split_ifs <;> first
    | apply sockInv_enter_stop_post
    | apply sockInv_esppk

/-- `enter_stop_pre` establishes the invariant outright. -/
theorem sockInv_enter_stop_pre (env : SocketMngEnv) (res : SocketResult)
    (m : SocketMngM) : SockInv (enter_stop_pre env res m) := by
  unfold enter_stop_pre
  simp only []
  generalize (if m.result = SocketResult.Success then { m with result := res } else m) = m1
  rcases control_command_pop (control_command_fill env SocketCommand.StopPre m1)
    with ⟨oc, m2⟩
  cases oc with
  | some cmd =>
    by_cases hs : env.spawnOk cmd = true
    · simp only [hs, if_true]
      exact sockInv_set_state_ne _ _ (fun hc => SocketState.noConfusion hc)
    · simp only [hs, Bool.false_eq_true, if_false]
      apply sockInv_enter_stop_post
  | none =>
    simp only []
    apply sockInv_enter_stop_post

/-- `enter_listening` establishes the invariant outright. -/
theorem sockInv_enter_listening (env : SocketMngEnv) (m : SocketMngM) :
    SockInv (enter_listening env m) := by
  unfold enter_listening
  simp only []
  generalize (if env.accept = true then m else flush_ports m) = m1
  apply sockInv_listening_watch

/-- `enter_start_post` establishes the invariant outright. -/
theorem sockInv_enter_start_post (env : SocketMngEnv) (m : SocketMngM) :
    SockInv (enter_start_post env m) := by
  unfold enter_start_post
  simp only []
  rcases control_command_pop (control_command_fill env SocketCommand.StartPost m)
    with ⟨oc, m2⟩
  cases oc with
  | some cmd =>
    by_cases hs : env.spawnOk cmd = true
    · simp only [hs, if_true]
      exact sockInv_set_state_ne _ _ (fun hc => SocketState.noConfusion hc)
    · simp only [hs, Bool.false_eq_true, if_false]
      apply sockInv_enter_stop_pre
  | none =>
    simp only []
    apply sockInv_enter_listening

/-- `enter_start_chown` establishes the invariant outright. -/
theorem sockInv_enter_start_chown (env : SocketMngEnv) (m : SocketMngM) :
    SockInv (enter_start_chown env m) := by
  unfold enter_start_chown
  rcases open_fds env m with ⟨m1, oe⟩
  cases oe with
  | none =>
    simp only []
    apply sockInv_enter_start_post
  | some e =>
    simp only []
    apply sockInv_enter_stop_pre

/-- `enter_start_pre` establishes the invariant outright. -/
theorem sockInv_enter_start_pre (env : SocketMngEnv) (m : SocketMngM) :
    SockInv (enter_start_pre env m) := by
  unfold enter_start_pre
  simp only []
  rcases control_command_pop (control_command_fill env SocketCommand.StartPre m)
    with ⟨oc, m2⟩
  cases oc with
  | some cmd =>
    by_cases hs : env.spawnOk cmd = true
    · simp only [hs, if_true]
      exact sockInv_set_state_ne _ _ (fun hc => SocketState.noConfusion hc)
    · simp only [hs, Bool.false_eq_true, if_false]
      apply sockInv_enter_dead
  | none =>
    simp only []
    apply sockInv_enter_start_chown

/-- Flushing ports touches neither descriptors nor watch flags, so it
preserves the invariant. -/
theorem sockInv_flush (m : SocketMngM) (h : SockInv m) : SockInv (flush_ports m) := by
  constructor
  · intro hst p hp h0
    have hst2 : m.state = SocketState.Listening := hst
    simp only [flush_ports, List.mem_map] at hp
    obtain ⟨q, hq, rfl⟩ := hp
    exact h.1 hst2 q hq h0
  · intro hst p hp
    have hst2 : m.state ≠ SocketState.Listening := hst
    simp only [flush_ports, List.mem_map] at hp
    obtain ⟨q, hq, rfl⟩ := hp
    exact h.2 hst2 q hq

/-- Popping a control command preserves the invariant (only the queue
changes). -/
theorem sockInv_pop (m : SocketMngM) (h : SockInv m) :
    SockInv (control_command_pop m).2 := by
  unfold control_command_pop
  cases m.controlCommand.getLast? with
  | none => exact h
  | some c => exact h

/-- `run_next` preserves the invariant. -/
theorem sockInv_run_next (env : SocketMngEnv) (m : SocketMngM) (h : SockInv m) :
    SockInv (run_next env m) := by
  unfold run_next
  have h2 := sockInv_pop m h
  rcases hq : control_command_pop m with ⟨oc, m2⟩
  rw [hq] at h2
  cases oc with
  | some cmd =>
    by_cases hs : env.spawnOk cmd = true
    · simp only [hs, if_true]
      exact h2
    · simp only [hs, Bool.false_eq_true, if_false]
      exact h2
  | none => exact h2

/-- `enter_running` preserves the invariant. -/
theorem sockInv_enter_running (env : SocketMngEnv) (fd : Int) (m : SocketMngM)
    (h : SockInv m) : SockInv (enter_running env fd m).mng := by
  unfold enter_running
  split_ifs with h1 h2 h3 h4 h5
  · exact h
  · exact sockInv_flush m h
  · exact sockInv_set_state_ne _ _ (fun hc => SocketState.noConfusion hc)
  · rcases env.unitRefTarget with _ | s
    · exact sockInv_enter_stop_pre env _ m
    · simp only []
      by_cases hsu : env.umStartUnitOk s = true
      · simp only [hsu, if_true]
        exact sockInv_set_state_ne _ _ (fun hc => SocketState.noConfusion hc)
      · simp only [hsu, Bool.false_eq_true, if_false]
        exact sockInv_enter_stop_pre env _ m
  · exact h
  · exact h

/-- `dispatch_io` preserves the invariant. -/
theorem sockInv_dispatch (env : SocketMngEnv) (pt : PortType) (st : SockType)
    (m : SocketMngM) (h : SockInv m) : SockInv (dispatch_io env pt st m).mng := by
  unfold dispatch_io
  split_ifs with h1 h2
  · exact h
  · rcases env.acceptResult with e | newfd
    · exact h
    · simp only []
      exact sockInv_enter_running env _ m h
  · simp only []
    exact sockInv_enter_running env _ m h

/-- `start_check` preserves the invariant. -/
theorem sockInv_start_check (env : SocketMngEnv) (m : SocketMngM) (h : SockInv m) :
    SockInv (start_check env m).1 := by
  unfold start_check
  split_ifs <;> first
    | exact h
    | exact sockInv_enter_dead _ m

/-- The socket sub-kind start preserves the invariant. -/
theorem sockInv_socket_start (env : SocketMngEnv) (m : SocketMngM) (h : SockInv m) :
    SockInv (socket_start env m).1 := by
  unfold socket_start
  have h2 := sockInv_start_check env m h
  rcases hq : start_check env m with ⟨m1, r⟩
  rw [hq] at h2
  cases r with
  | error e => exact h2
  | ok b =>
    cases b with
    | true => exact h2
    | false => exact sockInv_enter_start_pre env m1

/-- `stop_check` preserves the invariant. -/
theorem sockInv_stop_check (env : SocketMngEnv) (m : SocketMngM) (h : SockInv m) :
    SockInv (stop_check env m).1 := by
  unfold stop_check
  split_ifs <;> first
    | exact h
    | exact sockInv_esppt env _ m

/-- The socket sub-kind stop preserves the invariant. -/
theorem sockInv_socket_stop (env : SocketMngEnv) (force : Bool) (m : SocketMngM)
    (h : SockInv m) : SockInv (socket_stop env force m).1 := by
  unfold socket_stop
  split_ifs with hf
  · exact sockInv_enter_stop_pre env _ m
  · have h2 := sockInv_stop_check env m h
    rcases hq : stop_check env m with ⟨m1, r⟩
    rw [hq] at h2
    cases r with
    | error e => exact h2
    | ok b =>
      cases b with
      | true => exact h2
      | false => exact sockInv_enter_stop_pre env _ m1

/-- `sigchld_event` preserves the invariant. -/
theorem sockInv_sigchld (env : SocketMngEnv) (ws : WaitStatusM) (m m2 : SocketMngM)
    (h : SockInv m) (heq : sigchld_event env ws m = some m2) : SockInv m2 := by
  unfold sigchld_event at heq
  simp only [] at heq
  by_cases hc : (!m.controlCommand.isEmpty
      && decide (sigchld_result ws = SocketResult.Success)) = true
  · rw [if_pos hc] at heq
    rw [Option.some.injEq] at heq
    rw [← heq]
    exact sockInv_run_next env m h
  · rw [if_neg hc] at heq
    split at heq <;>
      first
      | exact Option.noConfusion heq
      | (rw [Option.some.injEq] at heq
         rw [← heq]
         first
           | exact sockInv_enter_stop_post env _ m
           | exact sockInv_enter_dead _ m
           | (split_ifs <;> first
               | exact sockInv_enter_start_chown env m
               | exact sockInv_enter_start_post env m
               | exact sockInv_enter_listening env m
               | exact sockInv_enter_stop_pre env _ m
               | exact sockInv_esft env _ m))

/-- Any single state-machine step preserves the invariant. -/
theorem sockInv_step {m m2 : SocketMngM} (hs : SockStep m m2) (h : SockInv m) :
    SockInv m2 := by
  cases hs with
  | start env m => exact sockInv_socket_start env m h
  | stop env force m => exact sockInv_socket_stop env force m h
  | sigchld env ws m m2 heq => exact sockInv_sigchld env ws m m2 h heq
  | dispatch env pt st m => exact sockInv_dispatch env pt st m h

/-- C8: over every state reachable by the socket state machine's operations
(start, stop, child exit, I/O dispatch) from a fresh manager, in `Listening`
every port with an open descriptor (`fd ≥ 0`) is registered and enabled in
the event loop, and in every other state — in particular every non-serving
state — no port event source is enabled: `set_state` disables the sources
whenever the new state is not `Listening`, and `enter_listening` re-registers
them just before setting `Listening`. -/
theorem socket_event_source_invariant :
    ∀ m : SocketMngM, SockReach m → SockInv m := by
  intro m h
  induction h with
  | init ports0 h0 =>
    constructor
    · intro hst
      exact absurd hst (fun hc => SocketState.noConfusion hc)
    · intro _ p hp
      exact (h0 p hp).2.2
  | step hr hs ih => exact sockInv_step hs ih

/-- Witness for C8 at the freshly built (reachable) manager. -/
theorem socket_event_source_invariant_w :
    SockInv (socket_mng_new []) :=
  socket_event_source_invariant (socket_mng_new [])
    (SockReach.init [] (fun p hp => absurd hp (List.not_mem_nil p)))
